import Mathlib

/-!
# VeloView: the live-sensor source (VelodyneHDL/vtkVelodyneHDLSource.cxx)

A shallow embedding of the packet pipeline of `vtkVelodyneHDLSource.cxx`:

* `SynchronizedQueue`  the mutex-protected FIFO with cooperative shutdown;
* `PacketConsumer`     the bounded frame cache (`Datasets` / `Timesteps`) with
                       nearest-time lookup;
* `FrameCache`         the frame cache as the specification words it, for the
                       comparison with the consumer's insert;
* `PacketReceiver`     the per-socket receive callback;
* `PacketNetworkSource` the fan-out of a received packet to the two queues;
* `vtkVelodyneHDLSource` the calls `Start`, `Stop` and `SetOutputFile` with
                       the start and stop of the consumer, the file writer and
                       the network source.

Conventions of the embedding.

* Every method runs under the object's mutex in the source, so a method is one
  atomic state transformer here.  A call that would wait on a condition
  variable that no later call of the same thread can signal returns `none`.
* C++ `double` times are rationals (`ℚ`); `LastTime += 1.0` is exact on
  doubles below `2^53`.  The one double operation whose result can need
  rounding, the subtraction in `GetIndexForTime`, rounds its exact result with
  a function `rounded` that the lookup takes as a parameter: `roundToDouble`
  for the arithmetic of the machine, the identity for times taken as exact
  numbers.
* `int MaxNumberOfDatasets` is an `Int`.  The only arithmetic on it is the
  comparison with `Datasets.size()`, which the source performs only when the
  value is positive, where the conversion to `size_t` keeps the value.
* `vtkSmartPointer<vtkPolyData>` is `Option Frame`, the null pointer being
  `none`; `std::string*` is `Option Nat`, an address into a heap of strings.
* `VTK_DOUBLE_MAX` comes from a VTK header and is a parameter of the lookup.
-/

namespace VelodyneHDL

/-! ## SynchronizedQueue -/

/-- The fields of `SynchronizedQueue<T>`: `std::queue<T> queue_` (head of the
list is the front), `request_to_end_` and `enqueue_data_`. -/
structure SynchronizedQueue (T : Type) where
  queue_ : List T
  request_to_end_ : Bool
  enqueue_data_ : Bool
  deriving DecidableEq, Repr

namespace SynchronizedQueue

variable {T : Type}

/-- The constructor: `queue_()`, `request_to_end_(false)`, `enqueue_data_(true)`. -/
def new : SynchronizedQueue T :=
  { queue_ := [], request_to_end_ := false, enqueue_data_ := true }

/-- The method `enqueue`: push to the back when `enqueue_data_` holds, else nothing. -/
def enqueue (q : SynchronizedQueue T) (data : T) : SynchronizedQueue T :=
  if q.enqueue_data_ then { q with queue_ := q.queue_ ++ [data] } else q

/-- The loop of `doEndActions`: `while (!queue_.empty()) queue_.pop();`. -/
def popAll : List T → List T
  | [] => []
  | _ :: rest => popAll rest

/-- The method `doEndActions`: clear `enqueue_data_`, then pop until the queue is empty. -/
def doEndActions (q : SynchronizedQueue T) : SynchronizedQueue T :=
  { q with enqueue_data_ := false, queue_ := popAll q.queue_ }

/-- The method `dequeue(T& result)`.  The value is `none` when the call waits on `cond_`
(empty queue, no end request); otherwise it is the returned `bool`, the value
of the reference `result` after the call, and the queue after the call. -/
def dequeue (q : SynchronizedQueue T) (result : T) :
    Option (Bool × T × SynchronizedQueue T) :=
  if q.queue_.isEmpty && !q.request_to_end_ then
    none
  else if q.request_to_end_ then
    some (false, result, q.doEndActions)
  else
    match q.queue_ with
    | [] => none
    | front :: rest => some (true, front, { q with queue_ := rest })

/-- The method `stopQueue`: set `request_to_end_`. -/
def stopQueue (q : SynchronizedQueue T) : SynchronizedQueue T :=
  { q with request_to_end_ := true }

/-- The method `size`: the number of queued items, cast to `unsigned int`. -/
def size (q : SynchronizedQueue T) : Nat :=
  q.queue_.length % 2 ^ 32

/-- The method `isEmpty`: whether `queue_` is empty. -/
def isEmpty (q : SynchronizedQueue T) : Bool :=
  q.queue_.isEmpty

/-- The items `items` handed to `enqueue` one after the other. -/
def enqueueAll (q : SynchronizedQueue T) (items : List T) : SynchronizedQueue T :=
  items.foldl enqueue q

/-- A run of `n` calls of `dequeue` that all return `true`: the values written
to `result`, in call order, and the queue after the last call; `none` when one
of the calls waits or returns `false`. -/
def dequeueN : Nat → SynchronizedQueue T → T → Option (List T × SynchronizedQueue T)
  | 0, q, _ => some ([], q)
  | n + 1, q, result =>
    match q.dequeue result with
    | some (true, front, q1) =>
      match dequeueN n q1 front with
      | some (items, q2) => some (front :: items, q2)
      | none => none
    | _ => none

/-- Where a drain loop stands: it left the loop because `dequeue` returned
`false`, it waits inside `dequeue`, or it is still running (back at the loop
test after the iterations counted so far).  `handled` lists the packets the
loop body was given, in order. -/
inductive LoopState (T : Type) where
  | exited (handled : List T) (q : SynchronizedQueue T)
  | waiting (handled : List T) (q : SynchronizedQueue T)
  | running (handled : List T) (packet : T) (q : SynchronizedQueue T)
  deriving DecidableEq, Repr

/-- The drain loop shared by `PacketConsumer::ThreadLoop` and
`PacketFileWriter::ThreadLoop`, `while (Packets->dequeue(packet)) { body }`,
run for at most `fuel` iterations.  The body, which hands the packet to the
reader or to the file writer and deletes it, is recorded in `handled`. -/
def ThreadLoop : Nat → SynchronizedQueue T → T → List T → LoopState T
  | 0, q, packet, handled => .running handled packet q
  | fuel + 1, q, packet, handled =>
    match q.dequeue packet with
    | none => .waiting handled q
    | some (false, _, q1) => .exited handled q1
    | some (true, packet1, q1) => ThreadLoop fuel q1 packet1 (handled ++ [packet1])

/-- The public calls of a `SynchronizedQueue`. -/
inductive Call (T : Type) where
  | enqueue (data : T)
  | dequeue (result : T)
  | stopQueue
  | size
  | isEmpty
  deriving DecidableEq, Repr

/-- The queue after one call; `none` when the call is a `dequeue` that waits. -/
def step (q : SynchronizedQueue T) : Call T → Option (SynchronizedQueue T)
  | .enqueue data => some (q.enqueue data)
  | .dequeue result =>
    match q.dequeue result with
    | some (_, _, q1) => some q1
    | none => none
  | .stopQueue => some q.stopQueue
  | .size => some q
  | .isEmpty => some q

/-- The queue after a sequence of calls, each started after the previous one
returned; `none` when one of them waits. -/
def run (q : SynchronizedQueue T) : List (Call T) → Option (SynchronizedQueue T)
  | [] => some q
  | call :: calls =>
    match q.step call with
    | some q1 => run q1 calls
    | none => none

end SynchronizedQueue

/-! ## Double arithmetic -/

/-- The integer nearest to `x`, the even one of the two when `x` lies half way. -/
def roundHalfEven (x : ℚ) : ℤ :=
  if x - (⌊x⌋ : ℚ) < 1 / 2 then ⌊x⌋
  else if 1 / 2 < x - (⌊x⌋ : ℚ) then ⌊x⌋ + 1
  else if ⌊x⌋ % 2 = 0 then ⌊x⌋ else ⌊x⌋ + 1

/-- The rounding of an exact result to a `double` (IEEE binary64, round to
nearest, ties to even): 53 significant bits at the binary exponent of `x`, the
exponent not below `-1022`.  The exponent is not bounded above: the results of
the subtractions modelled here, of a timestamp below `2^53` and a finite
double, stay in the range of the finite doubles. -/
def roundToDouble (x : ℚ) : ℚ :=
  if x = 0 then 0
  else (roundHalfEven (x / (2 : ℚ) ^ (max (Int.log 2 |x|) (-1022) - 52)) : ℚ)
    * (2 : ℚ) ^ (max (Int.log 2 |x|) (-1022) - 52)

/-! ## PacketConsumer -/

/-- The fields of `PacketConsumer` that the cache and the packet queue use.
`Datasets` and `Timesteps` are the two deques (head of the list is the front);
`Packets` is the shared pointer to the packet queue (`none` when reset) and
`Thread` tells whether the worker thread pointer is set. -/
structure PacketConsumer (Frame : Type) where
  NewData : Bool
  MaxNumberOfDatasets : Int
  LastTime : ℚ
  Datasets : List (Option Frame)
  Timesteps : List ℚ
  Packets : Option (SynchronizedQueue (Option Nat))
  Thread : Bool

namespace PacketConsumer

variable {Frame : Type}

/-- The constructor: no new data, capacity 1000, clock at 0, empty deques. -/
def new : PacketConsumer Frame :=
  { NewData := false, MaxNumberOfDatasets := 1000, LastTime := 0,
    Datasets := [], Timesteps := [], Packets := none, Thread := false }

/-- The loop of `UpdateDequeSize`, at most `fuel` iterations:
`while (Datasets.size() >= MaxNumberOfDatasets) { pop_front both deques }`. -/
def popWhileFull : Nat → PacketConsumer Frame → PacketConsumer Frame
  | 0, c => c
  | fuel + 1, c =>
    if (c.Datasets.length : Int) ≥ c.MaxNumberOfDatasets then
      popWhileFull fuel { c with Datasets := c.Datasets.tail, Timesteps := c.Timesteps.tail }
    else c

/-- The method `UpdateDequeSize`: nothing when the capacity is not positive, else the
eviction loop.  Each iteration removes one dataset, so `Datasets.size()`
iterations are enough for the loop to reach its exit test. -/
def UpdateDequeSize (c : PacketConsumer Frame) : PacketConsumer Frame :=
  if c.MaxNumberOfDatasets ≤ 0 then c
  else popWhileFull c.Datasets.length c

/-- The method `HandleNewData`: evict, append the clock value and the frame, raise
`NewData`, advance the clock by one. -/
def HandleNewData (c : PacketConsumer Frame) (polyData : Option Frame) :
    PacketConsumer Frame :=
  let c1 := c.UpdateDequeSize
  { c1 with
    Timesteps := c1.Timesteps ++ [c1.LastTime]
    Datasets := c1.Datasets ++ [polyData]
    NewData := true
    LastTime := c1.LastTime + 1 }

/-- The method `SetMaxNumberOfDatasets`: store the capacity, then `UpdateDequeSize`. -/
def SetMaxNumberOfDatasets (c : PacketConsumer Frame) (nDatasets : Int) :
    PacketConsumer Frame :=
  UpdateDequeSize { c with MaxNumberOfDatasets := nDatasets }

/-- The method `GetMaxNumberOfDatasets`. -/
def GetMaxNumberOfDatasets (c : PacketConsumer Frame) : Int :=
  c.MaxNumberOfDatasets

/-- The method `GetTimesteps`: a copy of the `Timesteps` deque. -/
def GetTimesteps (c : PacketConsumer Frame) : List ℚ :=
  (List.range c.Timesteps.length).map (fun i => c.Timesteps.getD i 0)

/-- The method `CheckForNewData`: return `NewData` and clear it. -/
def CheckForNewData (c : PacketConsumer Frame) : Bool × PacketConsumer Frame :=
  (c.NewData, { c with NewData := false })

/-- The loop of `GetIndexForTime` over the timesteps not yet visited: `i` is
the loop counter, `index` and `minDifference` the two locals.  The double
subtraction `Timesteps[i] - time` is the exact difference rounded by `rounded`;
`std::abs` and the comparison are exact. -/
def scanForTime (rounded : ℚ → ℚ) (time : ℚ) : List ℚ → Nat → Nat → ℚ → Nat
  | [], _, index, _ => index
  | step :: rest, i, index, minDifference =>
    let difference := |rounded (step - time)|
    if difference < minDifference then
      scanForTime rounded time rest (i + 1) i difference
    else
      scanForTime rounded time rest (i + 1) index minDifference

/-- The method `GetIndexForTime`: the scan started with `index = 0` and
`minDifference = VTK_DOUBLE_MAX`. -/
def GetIndexForTime (rounded : ℚ → ℚ) (VTK_DOUBLE_MAX : ℚ) (c : PacketConsumer Frame)
    (time : ℚ) : Nat :=
  scanForTime rounded time c.Timesteps 0 0 VTK_DOUBLE_MAX

/-- The method `GetDatasetForTime`: the returned smart pointer and the value
written to `actualTime`.  (An index past the end of `Datasets` cannot arise
while both deques have the same size; it reads as null here.) -/
def GetDatasetForTime (rounded : ℚ → ℚ) (VTK_DOUBLE_MAX : ℚ) (c : PacketConsumer Frame)
    (timeRequest : ℚ) : Option Frame × ℚ :=
  let stepIndex := c.GetIndexForTime rounded VTK_DOUBLE_MAX timeRequest
  if stepIndex < c.Timesteps.length then
    (c.Datasets.getD stepIndex none, c.Timesteps.getD stepIndex 0)
  else
    (none, 0)

/-- The method `Enqueue`: `Packets->enqueue(packet)`; `none` is the dereference of a null
`Packets`. -/
def Enqueue (c : PacketConsumer Frame) (packet : Option Nat) : Option (PacketConsumer Frame) :=
  match c.Packets with
  | some q => some { c with Packets := some (q.enqueue packet) }
  | none => none

/-- The frames `frames` handed to `HandleNewData` one after the other. -/
def insertAll (c : PacketConsumer Frame) (frames : List (Option Frame)) :
    PacketConsumer Frame :=
  frames.foldl HandleNewData c

/-- The calls that reach the cache of a `PacketConsumer`: `HandleNewData`, which
the worker thread makes for each decoded frame, and the four public methods. -/
inductive CacheCall (Frame : Type) where
  | HandleNewData (polyData : Option Frame)
  | SetMaxNumberOfDatasets (nDatasets : Int)
  | GetDatasetForTime (timeRequest : ℚ)
  | GetTimesteps
  | CheckForNewData

/-- The consumer after one call.  `GetDatasetForTime` and `GetTimesteps` only
read; `CheckForNewData` leaves the state its definition gives. -/
def call (c : PacketConsumer Frame) : CacheCall Frame → PacketConsumer Frame
  | .HandleNewData polyData => c.HandleNewData polyData
  | .SetMaxNumberOfDatasets nDatasets => c.SetMaxNumberOfDatasets nDatasets
  | .GetDatasetForTime _ => c
  | .GetTimesteps => c
  | .CheckForNewData => c.CheckForNewData.2

/-- The consumer after a sequence of calls, each made after the previous one
returned. -/
def calls (c : PacketConsumer Frame) (ops : List (CacheCall Frame)) : PacketConsumer Frame :=
  ops.foldl call c

/-- The frame a call inserts, if it is a `HandleNewData`. -/
def CacheCall.frame : CacheCall Frame → Option (Option Frame)
  | .HandleNewData polyData => some polyData
  | _ => none

/-- The frames that a sequence of calls inserts, in order. -/
def inserted (ops : List (CacheCall Frame)) : List (Option Frame) :=
  ops.filterMap CacheCall.frame

/-- The timestamps `0, 1, ..., n - 1`. -/
def stamps (n : Nat) : List ℚ :=
  (List.range n).map (fun (i : Nat) => (i : ℚ))

end PacketConsumer

/-! ## The frame cache of the specification -/

/-- The frame cache as the specification words it: "an ordered sequence of
(timestamp, Frame) pairs, capacity `C`", the "new data available" flag, and the
timestamp the next frame is assigned ("starting at 0.0 and incremented by 1.0
per completed frame"). -/
structure FrameCache (Frame : Type) where
  entries : List (ℚ × Option Frame)
  capacity : Int
  newData : Bool
  nextTime : ℚ

namespace FrameCache

variable {Frame : Type}

/-- The eviction of the specified insert: "if size exceeds capacity, evicts
from the head until size == capacity". -/
def evictToCapacity {β : Type} (capacity : Int) : List β → List β
  | [] => []
  | entry :: rest =>
    if ((entry :: rest).length : Int) > capacity then evictToCapacity capacity rest
    else entry :: rest

/-- The specified insert: "appends (assigned timestamp, frame) to the tail; if
size exceeds capacity, evicts from the head until size == capacity; sets a
new data available flag", where a capacity `n <= 0` "disables eviction". -/
def insert (s : FrameCache Frame) (frame : Option Frame) : FrameCache Frame :=
  let appended := s.entries ++ [(s.nextTime, frame)]
  { s with
    entries := if s.capacity ≤ 0 then appended else evictToCapacity s.capacity appended
    newData := true
    nextTime := s.nextTime + 1 }

end FrameCache

/-- The frame cache that a `PacketConsumer` represents: the two deques read
side by side as pairs, the capacity, the flag and the clock. -/
def PacketConsumer.toFrameCache {Frame : Type} (c : PacketConsumer Frame) : FrameCache Frame :=
  { entries := List.zip c.Timesteps c.Datasets, capacity := c.MaxNumberOfDatasets,
    newData := c.NewData, nextTime := c.LastTime }

/-! ## Packets in memory -/

/-- One `char` of a datagram. -/
abbrev Byte := Fin 256

/-- The `std::string` objects created with `new`: the address of a string is
its position in `strings`.  `new` takes the next position; `delete`, which only
the drain loops call, is not part of this fragment. -/
structure Heap where
  strings : List (List Byte)
  deriving DecidableEq, Repr

namespace Heap

/-- The string at an address, `none` when nothing was allocated there. -/
def read (heap : Heap) (address : Nat) : Option (List Byte) :=
  heap.strings[address]?

/-- The expression `new std::string(bytes)`: the address of the new string and the heap
holding it. -/
def alloc (heap : Heap) (bytes : List Byte) : Nat × Heap :=
  (heap.strings.length, { strings := heap.strings ++ [bytes] })

end Heap

/-! ## PacketFileWriter -/

/-- Modelled from the spec: `vtkPacketFileWriter`, the external packet writer
("exposes `open(path) -> ok/fail`, `write(bytes) -> ok/fail`, `close()`,
`isOpen()`"), whose source is not part of this file.  Its state here is the
file name it was last opened with and whether it is open. -/
structure vtkPacketFileWriter where
  FileName : String
  Open : Bool
  deriving DecidableEq, Repr

/-- The fields of `PacketFileWriter`: the external writer, whether the thread
pointer is set, and the shared pointer to the packet queue. -/
structure PacketFileWriter where
  PacketWriter : vtkPacketFileWriter
  Thread : Bool
  Packets : Option (SynchronizedQueue (Option Nat))
  deriving DecidableEq, Repr

namespace PacketFileWriter

/-- The method `Enqueue`: `Packets->enqueue(packet)`; `none` is the dereference of a null
`Packets`. -/
def Enqueue (w : PacketFileWriter) (packet : Option Nat) : Option PacketFileWriter :=
  match w.Packets with
  | some q => some { w with Packets := some (q.enqueue packet) }
  | none => none

end PacketFileWriter

/-! ## PacketReceiver and PacketNetworkSource -/

/-- The fields of `PacketReceiver`.  `ForwardEndpoint` is `destinationIp` with
`ForwardedPort`.  `ReceivePending` stands for the state of `Socket`: whether an
`async_receive` is outstanding. -/
structure PacketReceiver where
  isForwarding : Bool
  Port : Int
  ForwardedPort : Int
  PacketCounter : Int
  destinationIp : String
  RXBuffer : List Byte
  IsReceiving : Bool
  ShouldStop : Bool
  ReceivePending : Bool
  deriving DecidableEq, Repr

/-- The fields of `PacketNetworkSource`.  The shared pointers `Consumer` and
`Writer` are either null or point to the one consumer and the one file writer
that `vtkInternal` owns, so each is a flag: `true` when the pointer is set. -/
structure PacketNetworkSource where
  isForwarding : Bool
  ForwardedIpAddress : String
  ForwardedLIDARPort : Int
  ForwardedGPSPort : Int
  LIDARPort : Int
  GPSPort : Int
  Thread : Bool
  LIDARPortReceiver : Option PacketReceiver
  PositionPortReceiver : Option PacketReceiver
  Consumer : Bool
  Writer : Bool
  deriving DecidableEq, Repr

/-- The fields of `vtkVelodyneHDLSource::vtkInternal`: the consumer, the file
writer and the network source. -/
structure vtkInternal (Frame : Type) where
  Consumer : PacketConsumer Frame
  Writer : PacketFileWriter
  NetworkSource : PacketNetworkSource

namespace vtkInternal

variable {Frame : Type}

/-- The method `PacketNetworkSource::QueuePackets(packet)`, on the aggregate that holds
the objects its shared pointers point to.  `none` is undefined behaviour: a
null or dangling `packet` read by the copy, or `Enqueue` through a null
`Packets`. -/
def QueuePackets (s : vtkInternal Frame) (heap : Heap) (packet : Option Nat) :
    Option (vtkInternal Frame × Heap) :=
  -- std::string* packet2 = 0; if (Writer) packet2 = new std::string(*packet);
  let copied : Option (Option Nat × Heap) :=
    if s.NetworkSource.Writer then
      match packet.bind heap.read with
      | some bytes => some (some (heap.alloc bytes).1, (heap.alloc bytes).2)
      | none => none
    else some (none, heap)
  match copied with
  | none => none
  | some (packet2, heap1) =>
    -- if (Consumer) Consumer->Enqueue(packet);
    let queued : Option (vtkInternal Frame) :=
      if s.NetworkSource.Consumer then
        match s.Consumer.Enqueue packet with
        | some c => some { s with Consumer := c }
        | none => none
      else some s
    match queued with
    | none => none
    | some s1 =>
      -- if (Writer) Writer->Enqueue(packet2);
      if s1.NetworkSource.Writer then
        match s1.Writer.Enqueue packet2 with
        | some w => some ({ s1 with Writer := w }, heap1)
        | none => none
      else some (s1, heap1)

end vtkInternal

namespace PacketReceiver

variable {Frame : Type}

/-- The method `StartReceive`: set `IsReceiving`, then start an `async_receive` on `Socket`. -/
def StartReceive (r : PacketReceiver) : PacketReceiver :=
  { r with IsReceiving := true, ReceivePending := true }

/-- What one run of `SocketCallback` leaves: the receiver, its parent, the
heap, the datagrams that `ForwardedSocket.send_to` sent, and whether the run
ended by an exception leaving the callback. -/
structure CallbackResult (Frame : Type) where
  receiver : PacketReceiver
  parent : vtkInternal Frame
  heap : Heap
  sent : List (List Byte)
  thrown : Bool

/-- The method `SocketCallback(error, numberOfBytes)`, called when the outstanding
`async_receive` completes.  `error` is the truth value of the error code.
`send_to` is the behaviour of `ForwardedSocket.send_to(buffer, ForwardEndpoint)`
on the bytes it is given: `some n` when it returns `n`, `none` when it fails.
The call used is the overload without an `error_code` argument, which reports
failure by throwing `boost::system::system_error`; the callback has no handler,
so the exception leaves it at that statement.  `none` as a result is undefined
behaviour inside `QueuePackets`.  The progress line printed every 500 packets
is left out. -/
def SocketCallback (send_to : List Byte → Option Nat) (r : PacketReceiver)
    (parent : vtkInternal Frame) (heap : Heap) (error : Bool) (numberOfBytes : Nat) :
    Option (CallbackResult Frame) :=
  let r0 := { r with ReceivePending := false }
  if error || r0.ShouldStop then
    some { receiver := { r0 with IsReceiving := false }, parent := parent, heap := heap,
           sent := [], thrown := false }
  else
    -- std::string* packet = new std::string(this->RXBuffer, numberOfBytes);
    let bytes := r0.RXBuffer.take numberOfBytes
    let packet := (heap.alloc bytes).1
    let heap1 := (heap.alloc bytes).2
    -- if (isForwarding) { size_t bytesSent = ForwardedSocket.send_to(...); }
    let forwarded : Option (List (List Byte)) :=
      if r0.isForwarding then
        match send_to bytes with
        | some _ => some [bytes]
        | none => none
      else some []
    match forwarded with
    | none =>
      some { receiver := r0, parent := parent, heap := heap1, sent := [], thrown := true }
    | some sent =>
      -- this->Parent->QueuePackets(packet);
      match parent.QueuePackets heap1 (some packet) with
      | none => none
      | some (parent1, heap2) =>
        -- this->StartReceive(); ++this->PacketCounter
        let r1 := r0.StartReceive
        some { receiver := { r1 with PacketCounter := r1.PacketCounter + 1 },
               parent := parent1, heap := heap2, sent := sent, thrown := false }

end PacketReceiver

/-! ## Start and Stop -/

/-- Modelled from the spec: `isOpen()` of the external packet writer. -/
def vtkPacketFileWriter.IsOpen (w : vtkPacketFileWriter) : Bool :=
  w.Open

/-- Modelled from the spec: the file name accessor of the external packet
writer, the name of the file it has open. -/
def vtkPacketFileWriter.GetFileName (w : vtkPacketFileWriter) : String :=
  w.FileName

/-- Modelled from the spec: `close()` of the external packet writer.  The
writer is closed afterwards and names no file. -/
def vtkPacketFileWriter.Close (_w : vtkPacketFileWriter) : vtkPacketFileWriter :=
  { FileName := "", Open := false }

/-- Modelled from the spec: `open(path) -> ok/fail` of the external packet
writer, on a closed writer.  Whether the file can be opened is decided outside
the program and given as `ok`; a failed open leaves the writer as it was. -/
def vtkPacketFileWriter.OpenFile (w : vtkPacketFileWriter) (filename : String) (ok : Bool) :
    Bool × vtkPacketFileWriter :=
  if ok then (true, { FileName := filename, Open := true }) else (false, w)

/-- The state of a default-constructed `PacketFileWriter`: a closed writer, no
thread, no queue. -/
def PacketFileWriter.new : PacketFileWriter :=
  { PacketWriter := { FileName := "", Open := false }, Thread := false, Packets := none }

/-- The method `PacketFileWriter::Start(filename)`; `openOk` is the outcome of
`PacketWriter.Open` should it be called. -/
def PacketFileWriter.Start (w : PacketFileWriter) (filename : String) (openOk : Bool) :
    PacketFileWriter :=
  if w.Thread then w
  else
    let closed : vtkPacketFileWriter :=
      if w.PacketWriter.GetFileName ≠ filename then w.PacketWriter.Close else w.PacketWriter
    if !closed.IsOpen then
      if !(closed.OpenFile filename openOk).1 then
        { w with PacketWriter := (closed.OpenFile filename openOk).2 }
      else
        { PacketWriter := (closed.OpenFile filename openOk).2,
          Packets := some SynchronizedQueue.new, Thread := true }
    else
      { PacketWriter := closed, Packets := some SynchronizedQueue.new, Thread := true }

/-- The method `PacketFileWriter::Stop`: with a thread, `stopQueue`, join the
thread, then reset the thread and the queue pointers. -/
def PacketFileWriter.Stop (w : PacketFileWriter) : PacketFileWriter :=
  if w.Thread then { w with Thread := false, Packets := none } else w

/-- The method `PacketFileWriter::IsOpen`. -/
def PacketFileWriter.IsOpen (w : PacketFileWriter) : Bool :=
  w.PacketWriter.IsOpen

/-- The method `PacketFileWriter::Close`. -/
def PacketFileWriter.Close (w : PacketFileWriter) : PacketFileWriter :=
  { w with PacketWriter := w.PacketWriter.Close }

/-- The method `PacketConsumer::Start`: nothing with a thread, else a new queue
and a new thread. -/
def PacketConsumer.Start {Frame : Type} (c : PacketConsumer Frame) : PacketConsumer Frame :=
  if c.Thread then c
  else { c with Packets := some SynchronizedQueue.new, Thread := true }

/-- The method `PacketConsumer::Stop`: with a thread, `stopQueue`, join the
thread, then reset the thread and the queue pointers. -/
def PacketConsumer.Stop {Frame : Type} (c : PacketConsumer Frame) : PacketConsumer Frame :=
  if c.Thread then { c with Thread := false, Packets := none } else c

/-- The constructor of `PacketReceiver`; `none` is an exception leaving it, in
which case no receiver exists.  The initialiser of `ForwardEndpoint` evaluates
`address_v4::from_string(forwarddestinationIp)`, forwarding or not, which
throws on a string that is not an IPv4 address: `from_string` tells which
strings it accepts.  The body opens and binds `Socket` and, when forwarding,
opens `ForwardedSocket`, each of which throws on failure: `socketsOk` tells
whether they all succeed.  Then the fields are as given and `StartReceive` has
run.  The buffer, which the constructor leaves uninitialised, is 1500 zero
bytes here. -/
def PacketReceiver.new (from_string : String → Bool) (port forwardport : Int)
    (forwarddestinationIp : String) (flagforward : Bool) (socketsOk : Bool) :
    Option PacketReceiver :=
  if from_string forwarddestinationIp && socketsOk then
    some (PacketReceiver.StartReceive
      { isForwarding := flagforward, Port := port, ForwardedPort := forwardport,
        PacketCounter := 0, destinationIp := forwarddestinationIp,
        RXBuffer := List.replicate 1500 0, IsReceiving := true, ShouldStop := false,
        ReceivePending := false })
  else none

/-- The constructor of `PacketNetworkSource`: no thread, no receivers, the
consumer pointer set, the writer pointer null. -/
def PacketNetworkSource.new (argLIDARPort argGPSPort ForwardedLIDARPort_ ForwardedGPSPort_ : Int)
    (ForwardedIpAddress_ : String) (isForwarding_ : Bool) : PacketNetworkSource :=
  { isForwarding := isForwarding_, ForwardedIpAddress := ForwardedIpAddress_,
    ForwardedLIDARPort := ForwardedLIDARPort_, ForwardedGPSPort := ForwardedGPSPort_,
    LIDARPort := argLIDARPort, GPSPort := argGPSPort, Thread := false,
    LIDARPortReceiver := none, PositionPortReceiver := none, Consumer := true,
    Writer := false }

/-- The method `PacketNetworkSource::Start`: start the thread if there is
none; then, unless the LIDAR receiver exists, construct the LIDAR receiver and
then the position receiver.  `lidarOk` and `positionOk` are the outcomes of the
socket calls of the two constructors.  An exception from a constructor leaves
`Start` at that statement, with the pointer not assigned; the state is then
the one reached so far. -/
def PacketNetworkSource.Start (from_string : String → Bool) (n : PacketNetworkSource)
    (lidarOk positionOk : Bool) : PacketNetworkSource :=
  let n1 := if !n.Thread then { n with Thread := true } else n
  if n1.LIDARPortReceiver.isSome then n1
  else
    match PacketReceiver.new from_string n1.LIDARPort n1.ForwardedLIDARPort
        n1.ForwardedIpAddress n1.isForwarding lidarOk with
    | none => n1
    | some lidar =>
      let n2 := { n1 with LIDARPortReceiver := some lidar }
      match PacketReceiver.new from_string n2.GPSPort n2.ForwardedGPSPort
          n2.ForwardedIpAddress n2.isForwarding positionOk with
      | none => n2
      | some position => { n2 with PositionPortReceiver := some position }

/-- The method `PacketNetworkSource::Stop`: reset both receiver pointers. -/
def PacketNetworkSource.Stop (n : PacketNetworkSource) : PacketNetworkSource :=
  { n with PositionPortReceiver := none, LIDARPortReceiver := none }

/-- The fields of `vtkVelodyneHDLSource` that `Start`, `Stop` and
`SetOutputFile` use. -/
structure vtkVelodyneHDLSource (Frame : Type) where
  OutputFile : String
  LIDARPort : Int
  GPSPort : Int
  ForwardedLIDARPort : Int
  ForwardedGPSPort : Int
  ForwardedIpAddress : String
  isForwarding : Bool
  Internal : vtkInternal Frame

namespace vtkVelodyneHDLSource

variable {Frame : Type}

/-- The constructor: ports 2368 and 8308, no forwarding, an empty output file
name, and a new `vtkInternal`.  The two forwarded ports, which the constructor
does not set, are whatever values `fl` and `fg` the fields hold. -/
def new (fl fg : Int) : vtkVelodyneHDLSource Frame :=
  { OutputFile := "", LIDARPort := 2368, GPSPort := 8308, ForwardedLIDARPort := fl,
    ForwardedGPSPort := fg, ForwardedIpAddress := "", isForwarding := false,
    Internal :=
      { Consumer := PacketConsumer.new, Writer := PacketFileWriter.new,
        NetworkSource := PacketNetworkSource.new 2368 8308 fl fg "" false } }

/-- The method `SetOutputFile(filename)`: nothing for the current name, else
close the writer and store the name. -/
def SetOutputFile (s : vtkVelodyneHDLSource Frame) (filename : String) :
    vtkVelodyneHDLSource Frame :=
  if filename = s.OutputFile then s
  else
    { s with
      Internal := { s.Internal with Writer := s.Internal.Writer.Close }
      OutputFile := filename }

/-- The method `Start`; `openOk` is the outcome of the external writer's `Open`
should this call reach it, `lidarOk` and `positionOk` those of the socket calls
of the receiver constructors.  `NetworkSource.Start()` is the last statement,
so an exception from a constructor leaves the state that `Start` has reached. -/
def Start (from_string : String → Bool) (s : vtkVelodyneHDLSource Frame)
    (openOk lidarOk positionOk : Bool) : vtkVelodyneHDLSource Frame :=
  -- if (OutputFile.length()) Internal->Writer->Start(OutputFile);
  let writer :=
    if s.OutputFile.length ≠ 0 then s.Internal.Writer.Start s.OutputFile openOk
    else s.Internal.Writer
  -- NetworkSource.Writer.reset(); if (Writer->IsOpen()) NetworkSource.Writer = Writer;
  let writerSet := writer.IsOpen
  -- Internal->Consumer->Start();
  let consumer := s.Internal.Consumer.Start
  -- copy the configuration, then NetworkSource.Start();
  let source : PacketNetworkSource :=
    { s.Internal.NetworkSource with
      Writer := writerSet
      LIDARPort := s.LIDARPort
      GPSPort := s.GPSPort
      ForwardedGPSPort := s.ForwardedGPSPort
      ForwardedLIDARPort := s.ForwardedLIDARPort
      ForwardedIpAddress := s.ForwardedIpAddress
      isForwarding := s.isForwarding }
  { s with
    Internal :=
      { Consumer := consumer, Writer := writer,
        NetworkSource := source.Start from_string lidarOk positionOk } }

/-- The method `Stop`: stop the network source, then the consumer, then the
writer. -/
def Stop (s : vtkVelodyneHDLSource Frame) : vtkVelodyneHDLSource Frame :=
  { s with
    Internal :=
      { Consumer := s.Internal.Consumer.Stop, Writer := s.Internal.Writer.Stop,
        NetworkSource := s.Internal.NetworkSource.Stop } }

/-- The calls on a source: `Start` with the outcomes of the external writer's
`Open` and of the socket calls of the two receiver constructors, `Stop`,
`SetOutputFile`, and the setters of the configuration.  Modelled from the spec:
the setters of "data-channel UDP port, position-channel UDP port, forwarding
enable flag, forwarding destination IP and two destination ports", which the
class header declares and this file does not define; each stores its argument
in the field of its name. -/
inductive SourceCall where
  | Start (openOk lidarOk positionOk : Bool)
  | Stop
  | SetOutputFile (filename : String)
  | SetLIDARPort (port : Int)
  | SetGPSPort (port : Int)
  | SetForwardedLIDARPort (port : Int)
  | SetForwardedGPSPort (port : Int)
  | SetForwardedIpAddress (address : String)
  | SetisForwarding (flag : Bool)
  deriving DecidableEq, Repr

/-- The source after one call. -/
def call (from_string : String → Bool) (s : vtkVelodyneHDLSource Frame) :
    SourceCall → vtkVelodyneHDLSource Frame
  | .Start openOk lidarOk positionOk => s.Start from_string openOk lidarOk positionOk
  | .Stop => s.Stop
  | .SetOutputFile filename => s.SetOutputFile filename
  | .SetLIDARPort port => { s with LIDARPort := port }
  | .SetGPSPort port => { s with GPSPort := port }
  | .SetForwardedLIDARPort port => { s with ForwardedLIDARPort := port }
  | .SetForwardedGPSPort port => { s with ForwardedGPSPort := port }
  | .SetForwardedIpAddress address => { s with ForwardedIpAddress := address }
  | .SetisForwarding flag => { s with isForwarding := flag }

/-- The source after a sequence of calls, each made after the previous one
returned or was left by an exception. -/
def calls (from_string : String → Bool) (s : vtkVelodyneHDLSource Frame)
    (ops : List SourceCall) : vtkVelodyneHDLSource Frame :=
  ops.foldl (call from_string) s

/-- The receivers of the network source exist (one of the two pointers is set). -/
def receiversExist (s : vtkVelodyneHDLSource Frame) : Bool :=
  s.Internal.NetworkSource.LIDARPortReceiver.isSome ||
    s.Internal.NetworkSource.PositionPortReceiver.isSome

/-- The invariant of the source between calls: a consumer or writer with a
thread has its queue; an open external writer means a non-empty output file
name; the network source points to the consumer; and while receivers exist the
consumer has its queue and, if the network source points to the writer, the
writer has its queue. -/
def Safe (s : vtkVelodyneHDLSource Frame) : Prop :=
  (s.Internal.Consumer.Thread = true → s.Internal.Consumer.Packets.isSome = true) ∧
  (s.Internal.Writer.Thread = true → s.Internal.Writer.Packets.isSome = true) ∧
  (s.Internal.Writer.PacketWriter.Open = true → s.OutputFile.length ≠ 0) ∧
  s.Internal.NetworkSource.Consumer = true ∧
  (s.receiversExist = true →
    s.Internal.Consumer.Packets.isSome = true ∧
    (s.Internal.NetworkSource.Writer = true → s.Internal.Writer.Packets.isSome = true))

end vtkVelodyneHDLSource

/-! ## Sample states -/

/-- An address parser that accepts `127.0.0.1` and nothing else; it agrees
with `address_v4::from_string` on that address and on the empty string. -/
def sampleFromString (address : String) : Bool :=
  address = "127.0.0.1"


/-- A receiver on port 2368 that forwards to 127.0.0.1:2369, with a receive
outstanding and three bytes in its buffer. -/
def sampleReceiver : PacketReceiver :=
  { isForwarding := true, Port := 2368, ForwardedPort := 2369, PacketCounter := 0,
    destinationIp := "127.0.0.1", RXBuffer := [1, 2, 3], IsReceiving := true,
    ShouldStop := false, ReceivePending := true }

/-- A started source: the consumer has its (empty) packet queue; the file
writer has its queue exactly when `writing`, and the network source points to
it exactly then. -/
def sampleInternal (writing : Bool) : vtkInternal Nat :=
  { Consumer := { (PacketConsumer.new : PacketConsumer Nat) with
                  Packets := some SynchronizedQueue.new, Thread := true },
    Writer := { PacketWriter := { FileName := "out.pcap", Open := writing },
                Thread := writing,
                Packets := if writing then some SynchronizedQueue.new else none },
    NetworkSource :=
      { isForwarding := true, ForwardedIpAddress := "127.0.0.1",
        ForwardedLIDARPort := 2369, ForwardedGPSPort := 8309, LIDARPort := 2368,
        GPSPort := 8308, Thread := true, LIDARPortReceiver := none,
        PositionPortReceiver := none, Consumer := true, Writer := writing } }

/-! ## Theorems -/

/-- A rational within a half of an integer rounds to that integer. -/
theorem roundHalfEven_eq (x : ℚ) (z : ℤ) (h1 : (z : ℚ) - 1 / 2 < x)
    (h2 : x < (z : ℚ) + 1 / 2) : roundHalfEven x = z := by
  unfold roundHalfEven
  by_cases hx : (z : ℚ) ≤ x
  · have hf : ⌊x⌋ = z := by
      rw [Int.floor_eq_iff]
      constructor
      · exact hx
      · linarith
    rw [hf, if_pos (by linarith)]
  · have hf : ⌊x⌋ = z - 1 := by
      rw [Int.floor_eq_iff]
      push_cast
      constructor
      · linarith
      · linarith [not_le.mp hx]
    rw [hf]
    push_cast
    rw [if_neg (by linarith), if_pos (by linarith)]
    ring

/-- The double nearest to `x`, from the binary exponent `e` of `x` and an
integer `z` within a half of `x` counted in units of the last place. -/
theorem roundToDouble_eq (x : ℚ) (e z : ℤ) (hlo : (2 : ℚ) ^ e ≤ |x|)
    (hhi : |x| < (2 : ℚ) ^ (e + 1)) (hmin : -1022 ≤ e)
    (h1 : (z : ℚ) - 1 / 2 < x / (2 : ℚ) ^ (e - 52))
    (h2 : x / (2 : ℚ) ^ (e - 52) < (z : ℚ) + 1 / 2) :
    roundToDouble x = (z : ℚ) * (2 : ℚ) ^ (e - 52) := by
  have hpos : 0 < |x| := lt_of_lt_of_le (by positivity) hlo
  have hx : x ≠ 0 := abs_pos.mp hpos
  have hlog : Int.log 2 |x| = e := by
    apply le_antisymm
    · have hlt := (@Int.lt_zpow_iff_log_lt ℚ _ _ 2 (by norm_num) (e + 1) |x| hpos).mp
        (by exact_mod_cast hhi)
      omega
    · exact (@Int.zpow_le_iff_le_log ℚ _ _ 2 (by norm_num) e |x| hpos).mp
        (by exact_mod_cast hlo)
  unfold roundToDouble
  rw [if_neg hx, hlog, max_eq_left hmin, roundHalfEven_eq _ z h1 h2]


namespace SynchronizedQueue

variable {T : Type}

/-- The loop of `doEndActions` empties the queue. -/
theorem popAll_eq (items : List T) : popAll items = [] := by
  induction items with
  | nil => rfl
  | cons _ rest ih => simpa [popAll] using ih

/-- The method `enqueue` while `enqueue_data_` holds appends at the tail. -/
theorem enqueue_open (q : SynchronizedQueue T) (data : T) (h : q.enqueue_data_ = true) :
    q.enqueue data = { q with queue_ := q.queue_ ++ [data] } := by
  simp [enqueue, h]

/-- The method `enqueue` once `enqueue_data_` is cleared changes nothing. -/
theorem enqueue_closed (q : SynchronizedQueue T) (data : T) (h : q.enqueue_data_ = false) :
    q.enqueue data = q := by
  simp [enqueue, h]

/-- A run of `enqueue` calls while `enqueue_data_` holds appends the items in order. -/
theorem enqueueAll_open (q : SynchronizedQueue T) (items : List T)
    (h : q.enqueue_data_ = true) :
    q.enqueueAll items = { q with queue_ := q.queue_ ++ items } := by
  induction items generalizing q with
  | nil => simp [enqueueAll]
  | cons x rest ih =>
    have hstep : q.enqueueAll (x :: rest) = (q.enqueue x).enqueueAll rest := rfl
    rw [hstep, enqueue_open q x h,
      ih { q with queue_ := q.queue_ ++ [x] } h]
    simp

/-- A run of `enqueue` calls once `enqueue_data_` is cleared changes nothing. -/
theorem enqueueAll_closed (q : SynchronizedQueue T) (items : List T)
    (h : q.enqueue_data_ = false) : q.enqueueAll items = q := by
  induction items with
  | nil => rfl
  | cons x rest ih =>
    have hstep : q.enqueueAll (x :: rest) = (q.enqueue x).enqueueAll rest := rfl
    rw [hstep, enqueue_closed q x h, ih]

/-- The method `dequeue` after an end request: it returns `false`, leaves `result`
untouched, clears `enqueue_data_` and empties the queue. -/
theorem dequeue_ended (q : SynchronizedQueue T) (result : T) (h : q.request_to_end_ = true) :
    q.dequeue result =
      some (false, result, { q with enqueue_data_ := false, queue_ := [] }) := by
  simp [dequeue, h, doEndActions, popAll_eq]

/-- The method `dequeue` on a non-empty queue with no end request pops the front. -/
theorem dequeue_front (q : SynchronizedQueue T) (result front : T) (rest : List T)
    (h : q.request_to_end_ = false) (hq : q.queue_ = front :: rest) :
    q.dequeue result = some (true, front, { q with queue_ := rest }) := by
  simp [dequeue, h, hq]

/-- The method `dequeue` on an empty queue with no end request waits. -/
theorem dequeue_waits (q : SynchronizedQueue T) (result : T)
    (h : q.request_to_end_ = false) (hq : q.queue_ = []) : q.dequeue result = none := by
  simp [dequeue, h, hq]

/-- On a queue with no end request, `items.length` calls of `dequeue` return
the first items of the queue in order. -/
theorem dequeueN_open (items rest : List T) (result : T) (e : Bool) :
    dequeueN items.length
        ({ queue_ := items ++ rest, request_to_end_ := false, enqueue_data_ := e } :
          SynchronizedQueue T) result
      = some (items, { queue_ := rest, request_to_end_ := false, enqueue_data_ := e }) := by
  induction items generalizing result with
  | nil => rfl
  | cons x xs ih =>
    simp only [List.length_cons, List.cons_append, dequeueN]
    rw [dequeue_front _ result x (xs ++ rest) rfl rfl]
    simp only [ih x]

/-- On a queue with no end request, `k` iterations of the drain loop hand the
first `k` queued items to the body, in order, and leave the others queued. -/
theorem ThreadLoop_open (items : List T) (k : Nat) (hk : k ≤ items.length) (packet : T)
    (handled : List T) (e : Bool) :
    ∃ packet1,
      ThreadLoop k
          ({ queue_ := items, request_to_end_ := false, enqueue_data_ := e } :
            SynchronizedQueue T) packet handled
        = .running (handled ++ items.take k) packet1
            { queue_ := items.drop k, request_to_end_ := false, enqueue_data_ := e } := by
  induction k generalizing items packet handled with
  | zero => exact ⟨packet, by simp [ThreadLoop]⟩
  | succ k ih =>
    cases items with
    | nil => simp at hk
    | cons x xs =>
      obtain ⟨packet1, h1⟩ := ih xs (by simpa using hk) x (handled ++ [x])
      refine ⟨packet1, ?_⟩
      simp only [ThreadLoop]
      rw [dequeue_front _ packet x xs rfl rfl]
      simpa using h1

/-- After an end request the drain loop leaves at its next `dequeue`, with
nothing more handed to the body and the queue emptied. -/
theorem ThreadLoop_ended (q : SynchronizedQueue T) (fuel : Nat) (packet : T)
    (handled : List T) (h : q.request_to_end_ = true) :
    ThreadLoop (fuel + 1) q packet handled
      = .exited handled { q with enqueue_data_ := false, queue_ := [] } := by
  simp only [ThreadLoop]
  rw [dequeue_ended q packet h]

/-- C5, as stated, fails: one item enqueued on a fresh queue, then `stopQueue`,
then the drain loop.  The loop leaves at its first `dequeue` and its body is
never given the item. -/
theorem drain_after_stopQueue_counterexample :
    (∀ fuel, ThreadLoop (fuel + 1)
        (((new : SynchronizedQueue Nat).enqueueAll [7]).stopQueue) 0 []
      = .exited [] { queue_ := [], request_to_end_ := true, enqueue_data_ := false }) ∧
    ¬ ∃ fuel q, ThreadLoop fuel
        (((new : SynchronizedQueue Nat).enqueueAll [7]).stopQueue) 0 [] = .exited [7] q := by
  constructor
  · intro fuel
    rfl
  · rintro ⟨fuel, q, h⟩
    cases fuel with
    | zero => simp [ThreadLoop] at h
    | succ fuel =>
      rw [ThreadLoop_ended _ fuel 0 [] rfl] at h
      simp at h

/-- C5, amended: after `N` enqueues on a fresh queue and `stopQueue`, the drain
loop terminates at its first `dequeue` with nothing handed to its body and the
queued items discarded.  More generally a loop that has taken `k` of the items
before `stopQueue` has been handed exactly those `k`, in FIFO order, and after
`stopQueue` terminates at its next `dequeue`, the other items discarded. -/
theorem drain_after_stopQueue (items : List T) (k : Nat) (hk : k ≤ items.length)
    (packet : T) (fuel : Nat) :
    ThreadLoop (fuel + 1) (((new : SynchronizedQueue T).enqueueAll items).stopQueue) packet []
      = .exited [] { queue_ := [], request_to_end_ := true, enqueue_data_ := false } ∧
    ∃ packet1,
      ThreadLoop k ((new : SynchronizedQueue T).enqueueAll items) packet []
        = .running (items.take k) packet1
            { queue_ := items.drop k, request_to_end_ := false, enqueue_data_ := true } ∧
      ThreadLoop (fuel + 1)
          (stopQueue { queue_ := items.drop k, request_to_end_ := false, enqueue_data_ := true })
          packet1 (items.take k)
        = .exited (items.take k)
            { queue_ := [], request_to_end_ := true, enqueue_data_ := false } := by
  have hq : (new : SynchronizedQueue T).enqueueAll items
      = { queue_ := items, request_to_end_ := false, enqueue_data_ := true } := by
    rw [enqueueAll_open _ _ rfl]
    simp [new]
  rw [hq]
  refine ⟨by rw [ThreadLoop_ended _ fuel packet [] rfl]; rfl, ?_⟩
  obtain ⟨packet1, h1⟩ := ThreadLoop_open items k hk packet [] true
  refine ⟨packet1, by simpa using h1, ?_⟩
  rw [ThreadLoop_ended _ fuel packet1 _ rfl]
  rfl

/-- C5, amended, instance: three items, the loop takes two of them before
`stopQueue`; `stopQueue` before the loop starts hands it none. -/
theorem drain_after_stopQueue_witness :
    ThreadLoop 4 (((new : SynchronizedQueue Nat).enqueueAll [7, 8, 9]).stopQueue) 0 []
      = .exited [] { queue_ := [], request_to_end_ := true, enqueue_data_ := false } :=
  (drain_after_stopQueue [7, 8, 9] 2 (by decide) 0 3).1

/-- C6, as stated, fails: on a fresh queue, `stopQueue` and then `enqueue`
stores the item, so `size()` goes from 0 to 1. -/
theorem enqueue_after_stopQueue_counterexample :
    (((new : SynchronizedQueue Nat).stopQueue).enqueue 7).size = 1 ∧
    (((new : SynchronizedQueue Nat).stopQueue).enqueue 7).queue_
      ≠ ((new : SynchronizedQueue Nat).stopQueue).queue_ := by
  constructor <;> decide

/-- C6, amended: in every state, once `stopQueue` has been called and a
`dequeue` has observed it, the queue is empty and every later `enqueue` leaves
contents and `size()` as they are, the size staying 0.  An `enqueue` between
`stopQueue` and that `dequeue` is appended exactly when `enqueue_data_` is
still set. -/
theorem enqueue_after_observed_stop (q : SynchronizedQueue T) (result : T) (items : List T)
    (data : T) :
    (∃ q1, (q.stopQueue).dequeue result = some (false, result, q1) ∧
      q1.size = 0 ∧ q1.enqueue data = q1 ∧ q1.enqueueAll items = q1 ∧
      (q1.enqueueAll items).size = 0) ∧
    ((q.stopQueue).enqueue data).queue_
      = (if q.enqueue_data_ then q.queue_ ++ [data] else q.queue_) := by
  constructor
  · refine ⟨_, dequeue_ended q.stopQueue result rfl, rfl, enqueue_closed _ _ rfl, ?_, ?_⟩
    · exact enqueueAll_closed _ _ rfl
    · rw [enqueueAll_closed _ _ rfl]
      rfl
  · cases h : q.enqueue_data_ <;> simp [enqueue, stopQueue, h]

/-- Every call on a queue with an end request returns and keeps the request;
once `enqueue_data_` is cleared and the queue empty, they stay so. -/
theorem step_ended (q : SynchronizedQueue T) (call : Call T) (h : q.request_to_end_ = true) :
    ∃ q1, q.step call = some q1 ∧ q1.request_to_end_ = true ∧
      (q.enqueue_data_ = false → q.queue_ = [] →
        q1.enqueue_data_ = false ∧ q1.queue_ = []) := by
  cases call with
  | enqueue data =>
    refine ⟨q.enqueue data, rfl, ?_, ?_⟩
    · unfold enqueue
      split <;> simpa using h
    · intro he hq
      rw [enqueue_closed q data he]
      exact ⟨he, hq⟩
  | dequeue result =>
    refine ⟨{ q with enqueue_data_ := false, queue_ := [] }, ?_, h, ?_⟩
    · simp only [step]
      rw [dequeue_ended q result h]
    · intro _ _
      exact ⟨rfl, rfl⟩
  | stopQueue => exact ⟨q.stopQueue, rfl, rfl, fun he hq => ⟨he, hq⟩⟩
  | size => exact ⟨q, rfl, h, fun he hq => ⟨he, hq⟩⟩
  | isEmpty => exact ⟨q, rfl, h, fun he hq => ⟨he, hq⟩⟩

/-- The same over a sequence of calls. -/
theorem run_ended (q : SynchronizedQueue T) (calls : List (Call T))
    (h : q.request_to_end_ = true) :
    ∃ q1, q.run calls = some q1 ∧ q1.request_to_end_ = true ∧
      (q.enqueue_data_ = false → q.queue_ = [] →
        q1.enqueue_data_ = false ∧ q1.queue_ = []) := by
  induction calls generalizing q with
  | nil => exact ⟨q, rfl, h, fun he hq => ⟨he, hq⟩⟩
  | cons call calls ih =>
    obtain ⟨q1, hstep, hend1, hkeep1⟩ := step_ended q call h
    obtain ⟨q2, hrun, hend2, hkeep2⟩ := ih q1 hend1
    refine ⟨q2, ?_, hend2, ?_⟩
    · simp only [run, hstep]
      exact hrun
    · intro he hq
      obtain ⟨he1, hq1⟩ := hkeep1 he hq
      exact hkeep2 he1 hq1

/-- C7: shutdown is terminal.  From any queue, after `stopQueue` and any
sequence of calls, every call has returned, `request_to_end_` is still set and
every `dequeue` returns `false` with `result` untouched; the queue such a
`dequeue` leaves is empty with `enqueue_data_` cleared, and stays so under any
further sequence of calls, `enqueue` included. -/
theorem shutdown_is_terminal (q : SynchronizedQueue T) (calls : List (Call T)) :
    ∃ q1, (q.stopQueue).run calls = some q1 ∧ q1.request_to_end_ = true ∧
      ∀ result, ∃ q2, q1.dequeue result = some (false, result, q2) ∧
        q2.queue_ = [] ∧ q2.enqueue_data_ = false ∧
        (∀ data, (q2.enqueue data).queue_ = []) ∧
        ∀ later, ∃ q3, q2.run later = some q3 ∧ q3.request_to_end_ = true ∧
          q3.queue_ = [] ∧ q3.enqueue_data_ = false := by
  obtain ⟨q1, hrun, hend, -⟩ := run_ended q.stopQueue calls rfl
  refine ⟨q1, hrun, hend, ?_⟩
  intro result
  refine ⟨_, dequeue_ended q1 result hend, rfl, rfl, ?_, ?_⟩
  · intro data
    rw [enqueue_closed _ data rfl]
  · intro later
    obtain ⟨q3, hrun3, hend3, hkeep⟩ :=
      run_ended ({ q1 with enqueue_data_ := false, queue_ := [] }) later hend
    obtain ⟨he3, hq3⟩ := hkeep rfl rfl
    exact ⟨q3, hrun3, hend3, hq3, he3⟩

/-- C8: a queue with no end request and `enqueue_data_` set is a FIFO.
`enqueue` appends at the tail, `dequeue` on `front :: rest` returns `true` with
`front` and leaves `rest`, and on a fresh queue the items of any list, once
enqueued, come back from as many `dequeue` calls in insertion order, leaving
the queue empty. -/
theorem open_queue_is_fifo (q : SynchronizedQueue T) (hend : q.request_to_end_ = false)
    (hopen : q.enqueue_data_ = true) (data result : T) (items : List T) :
    q.enqueue data = { q with queue_ := q.queue_ ++ [data] } ∧
    (∀ front rest, q.queue_ = front :: rest →
      q.dequeue result = some (true, front, { q with queue_ := rest })) ∧
    dequeueN items.length ((new : SynchronizedQueue T).enqueueAll items) result
      = some (items, (new : SynchronizedQueue T)) := by
  refine ⟨enqueue_open q data hopen, ?_, ?_⟩
  · intro front rest hq
    exact dequeue_front q result front rest hend hq
  · rw [enqueueAll_open _ _ rfl]
    have h := dequeueN_open items [] result true
    simpa [new] using h

/-- C8, instance: on a fresh queue, `enqueue` of 7, 8, 9 and three `dequeue`
calls return 7, 8, 9 and leave the queue as new. -/
theorem open_queue_is_fifo_witness :
    dequeueN 3 ((new : SynchronizedQueue Nat).enqueueAll [7, 8, 9]) 0
      = some ([7, 8, 9], (new : SynchronizedQueue Nat)) :=
  (open_queue_is_fifo (new : SynchronizedQueue Nat) rfl rfl 0 0 [7, 8, 9]).2.2

end SynchronizedQueue

namespace PacketConsumer

variable {Frame : Type}

/-- The method `GetTimesteps` copies the deque element by element. -/
theorem GetTimesteps_eq (c : PacketConsumer Frame) : c.GetTimesteps = c.Timesteps := by
  unfold GetTimesteps
  apply List.ext_getElem
  · simp
  · intro n h₁ h₂
    simp [List.getElem?_eq_getElem h₂]

/-- The eviction loop with enough fuel drops `size + 1 - capacity` entries from
the head of both deques. -/
theorem popWhileFull_eq (fuel : Nat) (c : PacketConsumer Frame)
    (hpos : 0 < c.MaxNumberOfDatasets)
    (hfuel : c.Datasets.length + 1 - c.MaxNumberOfDatasets.toNat ≤ fuel) :
    popWhileFull fuel c =
      { c with
        Datasets := c.Datasets.drop (c.Datasets.length + 1 - c.MaxNumberOfDatasets.toNat)
        Timesteps := c.Timesteps.drop (c.Datasets.length + 1 - c.MaxNumberOfDatasets.toNat) } := by
  induction fuel generalizing c with
  | zero =>
    have h0 : c.Datasets.length + 1 - c.MaxNumberOfDatasets.toNat = 0 := by omega
    simp [popWhileFull, h0]
  | succ fuel ih =>
    unfold popWhileFull
    by_cases hfull : (c.Datasets.length : Int) ≥ c.MaxNumberOfDatasets
    · rw [if_pos hfull]
      have hlen : 1 ≤ c.Datasets.length := by omega
      rw [ih { c with Datasets := c.Datasets.tail, Timesteps := c.Timesteps.tail } hpos
        (by simp only [List.length_tail]; omega)]
      have hk : c.Datasets.length + 1 - c.MaxNumberOfDatasets.toNat
          = (c.Datasets.length - 1 + 1 - c.MaxNumberOfDatasets.toNat) + 1 := by omega
      simp only [List.length_tail, ← List.drop_one, List.drop_drop]
      rw [hk]
      simp [Nat.add_comm]
    · rw [if_neg hfull]
      have h0 : c.Datasets.length + 1 - c.MaxNumberOfDatasets.toNat = 0 := by omega
      simp [h0]

/-- The method `UpdateDequeSize` on a positive capacity. -/
theorem UpdateDequeSize_eq (c : PacketConsumer Frame) (hpos : 0 < c.MaxNumberOfDatasets) :
    c.UpdateDequeSize =
      { c with
        Datasets := c.Datasets.drop (c.Datasets.length + 1 - c.MaxNumberOfDatasets.toNat)
        Timesteps := c.Timesteps.drop (c.Datasets.length + 1 - c.MaxNumberOfDatasets.toNat) } := by
  unfold UpdateDequeSize
  rw [if_neg (by omega)]
  exact popWhileFull_eq _ c hpos (by omega)

/-- The eviction loop of `UpdateDequeSize` ends at its exit test: on a positive
capacity the call leaves fewer datasets than the capacity, and the same
capacity. -/
theorem UpdateDequeSize_exit (c : PacketConsumer Frame) (hpos : 0 < c.MaxNumberOfDatasets) :
    ((c.UpdateDequeSize).Datasets.length : Int) < (c.UpdateDequeSize).MaxNumberOfDatasets := by
  rw [UpdateDequeSize_eq c hpos]
  simp only [List.length_drop]
  omega

/-- Setting a capacity `n` with `0 < n` on a cache of `size` entries leaves
`min size (n - 1)` entries. -/
theorem SetMaxNumberOfDatasets_length (c : PacketConsumer Frame) (n : Int) (hpos : 0 < n) :
    (c.SetMaxNumberOfDatasets n).Datasets.length = min c.Datasets.length (n.toNat - 1) := by
  unfold SetMaxNumberOfDatasets
  rw [UpdateDequeSize_eq _ hpos]
  simp only [List.length_drop]
  omega

/-- The method `UpdateDequeSize` on a capacity that is not positive changes nothing. -/
theorem UpdateDequeSize_nonpos (c : PacketConsumer Frame) (h : c.MaxNumberOfDatasets ≤ 0) :
    c.UpdateDequeSize = c := by
  unfold UpdateDequeSize
  rw [if_pos h]

/-- Dropping in two steps and appending is dropping once from the extended list. -/
theorem drop_drop_snoc {β : Type} (X : List β) (p : β) (a b k : Nat) (h : a + b = k)
    (hk : k ≤ X.length) : (X.drop a).drop b ++ [p] = (X ++ [p]).drop k := by
  subst h
  rw [List.drop_drop, List.drop_append_of_le_length hk]

/-- The state after one `HandleNewData` on a positive capacity. -/
theorem HandleNewData_eq (c : PacketConsumer Frame) (polyData : Option Frame)
    (hpos : 0 < c.MaxNumberOfDatasets) :
    c.HandleNewData polyData =
      { c with
        Datasets :=
          c.Datasets.drop (c.Datasets.length + 1 - c.MaxNumberOfDatasets.toNat) ++ [polyData]
        Timesteps :=
          c.Timesteps.drop (c.Datasets.length + 1 - c.MaxNumberOfDatasets.toNat) ++ [c.LastTime]
        NewData := true
        LastTime := c.LastTime + 1 } := by
  unfold HandleNewData
  rw [UpdateDequeSize_eq c hpos]

/-- The state after one `HandleNewData` on a capacity that is not positive. -/
theorem HandleNewData_nonpos (c : PacketConsumer Frame) (polyData : Option Frame)
    (h : c.MaxNumberOfDatasets ≤ 0) :
    c.HandleNewData polyData =
      { c with
        Datasets := c.Datasets ++ [polyData]
        Timesteps := c.Timesteps ++ [c.LastTime]
        NewData := true
        LastTime := c.LastTime + 1 } := by
  unfold HandleNewData
  rw [UpdateDequeSize_nonpos c h]

/-- Inserting one more frame after a list of frames. -/
theorem insertAll_snoc (c : PacketConsumer Frame) (frames : List (Option Frame))
    (polyData : Option Frame) :
    c.insertAll (frames ++ [polyData]) = (c.insertAll frames).HandleNewData polyData := by
  simp [insertAll, List.foldl_append]

/-- The cache after a run of inserts on a positive capacity that the cache
does not exceed: the last `capacity` of the old entries followed by the new
ones, the new ones stamped `LastTime, LastTime + 1, ...`. -/
theorem insertAll_pos (c : PacketConsumer Frame) (frames : List (Option Frame))
    (hpos : 0 < c.MaxNumberOfDatasets)
    (hwf : c.Datasets.length = c.Timesteps.length)
    (hcap : (c.Datasets.length : Int) ≤ c.MaxNumberOfDatasets) :
    (c.insertAll frames).MaxNumberOfDatasets = c.MaxNumberOfDatasets ∧
    (c.insertAll frames).LastTime = c.LastTime + (frames.length : ℚ) ∧
    (c.insertAll frames).Datasets =
      (c.Datasets ++ frames).drop
        (c.Datasets.length + frames.length - c.MaxNumberOfDatasets.toNat) ∧
    (c.insertAll frames).Timesteps =
      (c.Timesteps ++ (List.range frames.length).map (fun (i : Nat) => c.LastTime + (i : ℚ))).drop
        (c.Datasets.length + frames.length - c.MaxNumberOfDatasets.toNat) := by
  induction frames using List.reverseRecOn with
  | nil =>
    have h0 : c.Datasets.length - c.MaxNumberOfDatasets.toNat = 0 := by omega
    simp [insertAll, h0]
  | append_singleton frames polyData ih =>
    obtain ⟨hmax, htime, hds, hts⟩ := ih
    rw [insertAll_snoc, HandleNewData_eq _ _ (by rw [hmax]; exact hpos)]
    simp only [hmax, htime, hds, hts]
    refine ⟨trivial, ?_, ?_, ?_⟩
    · simp [add_assoc]
    · rw [← List.append_assoc]
      exact drop_drop_snoc _ _ _ _ _
        (by simp only [List.length_drop, List.length_append, List.length_singleton]; omega)
        (by simp only [List.length_append, List.length_singleton]; omega)
    · rw [List.length_append, List.length_singleton, List.range_succ, List.map_append,
        ← List.append_assoc]
      exact drop_drop_snoc _ _ _ _ _
        (by simp only [List.length_drop, List.length_append, List.length_singleton]; omega)
        (by simp only [List.length_append, List.length_singleton, List.length_map,
              List.length_range]; omega)

/-- The cache after a run of inserts on a capacity that is not positive: every
old entry, then every new one. -/
theorem insertAll_nonpos (c : PacketConsumer Frame) (frames : List (Option Frame))
    (h : c.MaxNumberOfDatasets ≤ 0) :
    (c.insertAll frames).MaxNumberOfDatasets = c.MaxNumberOfDatasets ∧
    (c.insertAll frames).LastTime = c.LastTime + (frames.length : ℚ) ∧
    (c.insertAll frames).Datasets = c.Datasets ++ frames ∧
    (c.insertAll frames).Timesteps =
      c.Timesteps ++ (List.range frames.length).map (fun (i : Nat) => c.LastTime + (i : ℚ)) := by
  induction frames using List.reverseRecOn with
  | nil => simp [insertAll]
  | append_singleton frames polyData ih =>
    obtain ⟨hmax, htime, hds, hts⟩ := ih
    rw [insertAll_snoc, HandleNewData_nonpos _ _ (by rw [hmax]; exact h)]
    simp only [hmax, htime, hds, hts]
    refine ⟨trivial, ?_, ?_, ?_⟩
    · simp [add_assoc]
    · simp
    · simp [List.range_succ]

/-- The method `SetMaxNumberOfDatasets` on a positive capacity drops `size + 1 - capacity`
entries from the head of both deques. -/
theorem SetMaxNumberOfDatasets_pos (c : PacketConsumer Frame) (nDatasets : Int)
    (hpos : 0 < nDatasets) :
    c.SetMaxNumberOfDatasets nDatasets =
      { c with
        MaxNumberOfDatasets := nDatasets
        Datasets := c.Datasets.drop (c.Datasets.length + 1 - nDatasets.toNat)
        Timesteps := c.Timesteps.drop (c.Datasets.length + 1 - nDatasets.toNat) } := by
  unfold SetMaxNumberOfDatasets
  rw [UpdateDequeSize_eq _ hpos]

/-- The method `SetMaxNumberOfDatasets` on a capacity that is not positive only stores it. -/
theorem SetMaxNumberOfDatasets_nonpos (c : PacketConsumer Frame) (nDatasets : Int)
    (h : nDatasets ≤ 0) :
    c.SetMaxNumberOfDatasets nDatasets = { c with MaxNumberOfDatasets := nDatasets } := by
  unfold SetMaxNumberOfDatasets
  rw [UpdateDequeSize_nonpos _ h]

/-- C1: for every capacity `C > 0` and every `K`, inserting `C + K` frames into
a fresh consumer whose capacity was set to `C` leaves exactly the last `C`
frames, in their order, and `GetTimesteps` returns `[K, K+1, ..., C+K-1]`. -/
theorem insert_keeps_last_capacity (C K : Nat) (hC : 0 < C)
    (frames : List (Option Frame)) (hlen : frames.length = C + K) :
    (((new : PacketConsumer Frame).SetMaxNumberOfDatasets (C : Int)).insertAll
        frames).GetTimesteps = (List.range' K C).map (fun (n : Nat) => (n : ℚ)) ∧
    (((new : PacketConsumer Frame).SetMaxNumberOfDatasets (C : Int)).insertAll
        frames).Datasets = frames.drop K ∧
    (((new : PacketConsumer Frame).SetMaxNumberOfDatasets (C : Int)).insertAll
        frames).Datasets.length = C := by
  have hset : (new : PacketConsumer Frame).SetMaxNumberOfDatasets (C : Int)
      = { NewData := false, MaxNumberOfDatasets := (C : Int), LastTime := 0, Datasets := [],
          Timesteps := [], Packets := none, Thread := false } := by
    rw [SetMaxNumberOfDatasets_pos _ _ (by exact_mod_cast hC)]
    simp [new]
  rw [hset]
  obtain ⟨-, -, hds, hts⟩ :=
    insertAll_pos
      ({ NewData := false, MaxNumberOfDatasets := (C : Int), LastTime := 0, Datasets := [],
         Timesteps := [], Packets := none, Thread := false } : PacketConsumer Frame)
      frames (by simpa using hC) (by simp) (by simp)
  have hk : frames.length - C = K := by omega
  simp only [List.length_nil, Int.toNat_ofNat, List.nil_append, zero_add, hk] at hds hts
  refine ⟨?_, hds, ?_⟩
  · rw [GetTimesteps_eq, hts, hlen]
    apply List.ext_getElem
    · simp
    · intro n h₁ h₂
      simp [Nat.add_comm]
  · rw [hds, List.length_drop, hlen]
    omega

/-- C1, instance: capacity 5 and 7 inserts leave the timestamps `[2,3,4,5,6]`. -/
theorem insert_keeps_last_capacity_witness :
    (((new : PacketConsumer Nat).SetMaxNumberOfDatasets 5).insertAll
        [some 10, some 11, some 12, some 13, some 14, some 15, some 16]).GetTimesteps
      = [2, 3, 4, 5, 6] ∧
    (((new : PacketConsumer Nat).SetMaxNumberOfDatasets 5).insertAll
        [some 10, some 11, some 12, some 13, some 14, some 15, some 16]).Datasets
      = [some 12, some 13, some 14, some 15, some 16] := by
  have h := insert_keeps_last_capacity 5 2 (by decide)
    [some 10, some 11, some 12, some 13, some 14, some 15, some 16] rfl
  refine ⟨?_, h.2.1⟩
  have h1 := h.1
  simp only [List.range', List.map] at h1
  norm_num at h1
  exact h1

/-- C3, the source at a cache of three entries: `SetMaxNumberOfDatasets(2)`
leaves one entry, the most recent, not two. -/
theorem SetMaxNumberOfDatasets_leaves_one_less :
    ((((new : PacketConsumer Nat).insertAll [some 10, some 11, some 12]).SetMaxNumberOfDatasets
        2).Datasets = [some 12]) ∧
    ((((new : PacketConsumer Nat).insertAll [some 10, some 11, some 12]).SetMaxNumberOfDatasets
        2).Timesteps.length = 1) := by
  constructor <;> decide

/-- C4: for every cache and every `n ≤ 0`, `SetMaxNumberOfDatasets(n)` removes
no entry, and after `m` further inserts the cache holds every previous entry
followed by the `m` new ones. -/
theorem nonpositive_capacity_never_evicts (c : PacketConsumer Frame) (n : Int) (hn : n ≤ 0)
    (frames : List (Option Frame)) :
    (c.SetMaxNumberOfDatasets n).Datasets = c.Datasets ∧
    (c.SetMaxNumberOfDatasets n).Timesteps = c.Timesteps ∧
    ((c.SetMaxNumberOfDatasets n).insertAll frames).MaxNumberOfDatasets = n ∧
    ((c.SetMaxNumberOfDatasets n).insertAll frames).Datasets = c.Datasets ++ frames ∧
    ((c.SetMaxNumberOfDatasets n).insertAll frames).Timesteps =
      c.Timesteps ++ (List.range frames.length).map (fun (i : Nat) => c.LastTime + (i : ℚ)) := by
  rw [SetMaxNumberOfDatasets_nonpos c n hn]
  obtain ⟨hmax, -, hds, hts⟩ :=
    insertAll_nonpos { c with MaxNumberOfDatasets := n } frames hn
  exact ⟨rfl, rfl, hmax, hds, hts⟩

/-- C4, instance: a cache of three entries with the capacity set to `-1`
keeps them and the two frames inserted afterwards. -/
theorem nonpositive_capacity_never_evicts_witness :
    ((((new : PacketConsumer Nat).insertAll [some 10, some 11, some 12]).SetMaxNumberOfDatasets
        (-1)).insertAll [some 13, some 14]).Datasets
      = ((new : PacketConsumer Nat).insertAll [some 10, some 11, some 12]).Datasets
          ++ [some 13, some 14] :=
  (nonpositive_capacity_never_evicts
    ((new : PacketConsumer Nat).insertAll [some 10, some 11, some 12]) (-1) (by decide)
    [some 13, some 14]).2.2.2.1

/-- The lookup in the arithmetic of the machine, on the cache of three inserts
(timestamps 0, 1, 2) at the request `2^60`: the three differences all round to
`2^60`, none is below the one kept from index 0, and the entry stamped 0 is
returned. -/
theorem GetDatasetForTime_double_ties :
    GetDatasetForTime roundToDouble (10 ^ 299)
        ({ NewData := true, MaxNumberOfDatasets := 1000, LastTime := 3,
           Datasets := [some 10, some 11, some 12], Timesteps := [0, 1, 2],
           Packets := none, Thread := false } : PacketConsumer Nat) (2 ^ 60)
      = (some 10, 0) := by
  have h0 : roundToDouble ((0 : ℚ) - 2 ^ 60) = -(2 ^ 60) := by
    rw [roundToDouble_eq ((0 : ℚ) - 2 ^ 60) 60 (-(2 ^ 52))
      (by norm_num [abs_of_nonneg, abs_of_neg]) (by norm_num [abs_of_nonneg, abs_of_neg])
      (by norm_num) (by norm_num) (by norm_num)]
    norm_num
  have h1 : roundToDouble ((1 : ℚ) - 2 ^ 60) = -(2 ^ 60) := by
    rw [roundToDouble_eq ((1 : ℚ) - 2 ^ 60) 59 (-(2 ^ 53))
      (by norm_num [abs_of_nonneg, abs_of_neg]) (by norm_num [abs_of_nonneg, abs_of_neg])
      (by norm_num) (by norm_num) (by norm_num)]
    norm_num
  have h2 : roundToDouble ((2 : ℚ) - 2 ^ 60) = -(2 ^ 60) := by
    rw [roundToDouble_eq ((2 : ℚ) - 2 ^ 60) 59 (-(2 ^ 53))
      (by norm_num [abs_of_nonneg, abs_of_neg]) (by norm_num [abs_of_nonneg, abs_of_neg])
      (by norm_num) (by norm_num) (by norm_num)]
    norm_num
  simp only [GetDatasetForTime, GetIndexForTime, scanForTime, h0, h1, h2]
  norm_num

/-- In every case `UpdateDequeSize` drops the same number of entries from the
head of both deques, and changes nothing else. -/
theorem UpdateDequeSize_drop (c : PacketConsumer Frame) :
    ∃ j, j ≤ c.Datasets.length ∧
      c.UpdateDequeSize =
        { c with Datasets := c.Datasets.drop j, Timesteps := c.Timesteps.drop j } := by
  by_cases hpos : 0 < c.MaxNumberOfDatasets
  · exact ⟨c.Datasets.length + 1 - c.MaxNumberOfDatasets.toNat, by omega,
      UpdateDequeSize_eq c hpos⟩
  · refine ⟨0, Nat.zero_le _, ?_⟩
    rw [UpdateDequeSize_nonpos c (by omega)]
    simp

/-- One more call after a sequence of calls. -/
theorem calls_snoc (c : PacketConsumer Frame) (ops : List (CacheCall Frame))
    (op : CacheCall Frame) : c.calls (ops ++ [op]) = (c.calls ops).call op := by
  simp [calls, List.foldl_append]

/-- The timestamps up to `n` are those up to `n - 1` followed by `n`. -/
theorem stamps_succ (n : Nat) : stamps (n + 1) = stamps n ++ [(n : ℚ)] := by
  simp [stamps, List.range_succ]

/-- There are `n` timestamps below `n`. -/
theorem stamps_length (n : Nat) : (stamps n).length = n := by
  simp [stamps]

/-- The timestamps `0, 1, ..., n - 1` are strictly increasing. -/
theorem stamps_increasing (n : Nat) : (stamps n).Pairwise (fun a b => a < b) := by
  unfold stamps
  exact List.Pairwise.map _ (fun a b hab => by exact_mod_cast hab) (List.pairwise_lt_range n)

/-- The cache in a state reachable from a fresh consumer: the clock counts the
inserts, and the deques hold the inserted frames and the timestamps
`0, 1, ...` with one and the same number of entries dropped from the head. -/
theorem calls_new_inv (ops : List (CacheCall Frame)) :
    ((new : PacketConsumer Frame).calls ops).LastTime = ((inserted ops).length : ℚ) ∧
    ∃ k, k ≤ (inserted ops).length ∧
      ((new : PacketConsumer Frame).calls ops).Datasets = (inserted ops).drop k ∧
      ((new : PacketConsumer Frame).calls ops).Timesteps
        = (stamps (inserted ops).length).drop k := by
  induction ops using List.reverseRecOn with
  | nil => exact ⟨by simp [calls, new, inserted], 0, by simp [calls, new, inserted, stamps]⟩
  | append_singleton ops op ih =>
    obtain ⟨htime, k, hk, hds, hts⟩ := ih
    rw [calls_snoc]
    have hins : inserted (ops ++ [op]) = inserted ops ++ (inserted [op]) := by
      simp [inserted, List.filterMap_append]
    have hlen : ((new : PacketConsumer Frame).calls ops).Datasets.length
        = (inserted ops).length - k := by
      rw [hds, List.length_drop]
    cases op with
    | HandleNewData polyData =>
      have hone : inserted [CacheCall.HandleNewData polyData] = [polyData] := rfl
      obtain ⟨j, hj, hupd⟩ := UpdateDequeSize_drop ((new : PacketConsumer Frame).calls ops)
      rw [hins, hone]
      simp only [call, HandleNewData, hupd, hds, hts, htime, List.length_append,
        List.length_singleton, stamps_succ]
      refine ⟨by push_cast; ring, k + j, by omega, ?_, ?_⟩
      · exact drop_drop_snoc _ _ _ _ _ rfl (by omega)
      · exact drop_drop_snoc _ _ _ _ _ rfl (by rw [stamps_length]; omega)
    | SetMaxNumberOfDatasets nDatasets =>
      have hone : inserted [CacheCall.SetMaxNumberOfDatasets nDatasets]
          = ([] : List (Option Frame)) := rfl
      obtain ⟨j, hj, hupd⟩ := UpdateDequeSize_drop
        { ((new : PacketConsumer Frame).calls ops) with MaxNumberOfDatasets := nDatasets }
      rw [hins, hone, List.append_nil]
      simp only [call, SetMaxNumberOfDatasets]
      rw [hupd]
      simp only [hds, hts, htime, List.drop_drop]
      exact ⟨trivial, k + j, by simp only at hj; omega, rfl, rfl⟩
    | GetDatasetForTime t =>
      have hone : inserted [CacheCall.GetDatasetForTime t] = ([] : List (Option Frame)) := rfl
      rw [hins, hone, List.append_nil]
      exact ⟨htime, k, hk, hds, hts⟩
    | GetTimesteps =>
      have hone : inserted [CacheCall.GetTimesteps] = ([] : List (Option Frame)) := rfl
      rw [hins, hone, List.append_nil]
      exact ⟨htime, k, hk, hds, hts⟩
    | CheckForNewData =>
      have hone : inserted [CacheCall.CheckForNewData] = ([] : List (Option Frame)) := rfl
      rw [hins, hone, List.append_nil]
      exact ⟨htime, k, hk, hds, hts⟩

/-- In a state reachable from a fresh consumer both deques have the same size. -/
theorem calls_new_wf (ops : List (CacheCall Frame)) :
    ((new : PacketConsumer Frame).calls ops).Datasets.length
      = ((new : PacketConsumer Frame).calls ops).Timesteps.length := by
  obtain ⟨-, k, -, hds, hts⟩ := calls_new_inv ops
  rw [hds, hts]
  simp [stamps_length]

/-- C11: frame timestamps are a synthetic counter.  In every state reachable
from a fresh consumer by inserts interleaved with `SetMaxNumberOfDatasets`,
`GetDatasetForTime`, `GetTimesteps` and `CheckForNewData`, the next frame
inserted is stored with the number of frames inserted before it; the cache
holds the inserted frames from some position `k` on, the frame inserted as the
`i`-th stored with timestamp `i`; and the stored timestamps are strictly
increasing from head to tail. -/
theorem timestamps_count_inserts (ops : List (CacheCall Frame)) (polyData : Option Frame) :
    (((new : PacketConsumer Frame).calls ops).HandleNewData polyData).Timesteps.getLast?
      = some ((inserted ops).length : ℚ) ∧
    (((new : PacketConsumer Frame).calls ops).HandleNewData polyData).Datasets.getLast?
      = some polyData ∧
    (∃ k, k ≤ (inserted ops).length ∧
      ((new : PacketConsumer Frame).calls ops).Datasets = (inserted ops).drop k ∧
      ((new : PacketConsumer Frame).calls ops).Timesteps
        = ((List.range (inserted ops).length).map (fun (i : Nat) => (i : ℚ))).drop k) ∧
    ((new : PacketConsumer Frame).calls ops).Timesteps.Pairwise (fun a b => a < b) := by
  obtain ⟨htime, k, hk, hds, hts⟩ := calls_new_inv ops
  obtain ⟨j, -, hupd⟩ := UpdateDequeSize_drop ((new : PacketConsumer Frame).calls ops)
  refine ⟨?_, ?_, ⟨k, hk, hds, hts⟩, ?_⟩
  · simp only [HandleNewData, hupd, htime]
    simp
  · simp only [HandleNewData, hupd]
    simp
  · rw [hts]
    exact List.Pairwise.drop (stamps_increasing _)

/-- The stored capacity after `SetMaxNumberOfDatasets`. -/
theorem SetMaxNumberOfDatasets_max (c : PacketConsumer Frame) (n : Int) :
    (c.SetMaxNumberOfDatasets n).MaxNumberOfDatasets = n := by
  unfold SetMaxNumberOfDatasets
  obtain ⟨j, -, hupd⟩ := UpdateDequeSize_drop { c with MaxNumberOfDatasets := n }
  rw [hupd]

/-- The stored capacity and the number of datasets after `HandleNewData`. -/
theorem HandleNewData_length (c : PacketConsumer Frame) (polyData : Option Frame) :
    (c.HandleNewData polyData).MaxNumberOfDatasets = c.MaxNumberOfDatasets ∧
    (0 < c.MaxNumberOfDatasets →
      ((c.HandleNewData polyData).Datasets.length : Int) ≤ c.MaxNumberOfDatasets) := by
  constructor
  · obtain ⟨j, -, hupd⟩ := UpdateDequeSize_drop c
    simp only [HandleNewData, hupd]
  · intro hpos
    rw [HandleNewData_eq c polyData hpos]
    simp only [List.length_append, List.length_drop, List.length_singleton]
    omega

/-- C12: the cache is bounded.  In every state reachable from a fresh consumer,
whenever the capacity is positive both deques hold at most that many entries;
this holds in particular right after `SetMaxNumberOfDatasets` stores a positive
capacity, whatever the capacity was before. -/
theorem cache_is_bounded (ops : List (CacheCall Frame)) :
    (0 < ((new : PacketConsumer Frame).calls ops).MaxNumberOfDatasets →
      (((new : PacketConsumer Frame).calls ops).Datasets.length : Int)
          ≤ ((new : PacketConsumer Frame).calls ops).MaxNumberOfDatasets ∧
      (((new : PacketConsumer Frame).calls ops).Timesteps.length : Int)
          ≤ ((new : PacketConsumer Frame).calls ops).MaxNumberOfDatasets) ∧
    (∀ n : Int, 0 < n →
      ((((new : PacketConsumer Frame).calls ops).SetMaxNumberOfDatasets n).Datasets.length : Int)
          ≤ n) := by
  have hset : ∀ (c : PacketConsumer Frame) (n : Int), 0 < n →
      ((c.SetMaxNumberOfDatasets n).Datasets.length : Int) ≤ n := by
    intro c n hn
    rw [SetMaxNumberOfDatasets_length c n hn]
    omega
  refine ⟨?_, fun n hn => hset _ n hn⟩
  have hds : 0 < ((new : PacketConsumer Frame).calls ops).MaxNumberOfDatasets →
      (((new : PacketConsumer Frame).calls ops).Datasets.length : Int)
        ≤ ((new : PacketConsumer Frame).calls ops).MaxNumberOfDatasets := by
    induction ops using List.reverseRecOn with
    | nil => intro _; simp [calls, new]
    | append_singleton ops op ih =>
      rw [calls_snoc]
      cases op with
      | HandleNewData polyData =>
        intro hpos
        obtain ⟨hmax, hlen⟩ :=
          HandleNewData_length ((new : PacketConsumer Frame).calls ops) polyData
        simp only [call] at hpos ⊢
        rw [hmax] at hpos ⊢
        exact hlen hpos
      | SetMaxNumberOfDatasets nDatasets =>
        intro hpos
        simp only [call] at hpos ⊢
        rw [SetMaxNumberOfDatasets_max] at hpos ⊢
        exact hset _ nDatasets hpos
      | GetDatasetForTime t => exact ih
      | GetTimesteps => exact ih
      | CheckForNewData => exact ih
  intro hpos
  refine ⟨hds hpos, ?_⟩
  rw [← calls_new_wf ops]
  exact hds hpos

/-- C12, instance: with the capacity set to 0, three frames inserted and the
capacity then set to 2, the cache holds at most 2 entries. -/
theorem cache_is_bounded_witness :
    (((new : PacketConsumer Nat).calls
        [.SetMaxNumberOfDatasets 0, .HandleNewData (some 10), .HandleNewData (some 11),
         .HandleNewData (some 12), .SetMaxNumberOfDatasets 2]).Datasets.length : Int)
      ≤ ((new : PacketConsumer Nat).calls
        [.SetMaxNumberOfDatasets 0, .HandleNewData (some 10), .HandleNewData (some 11),
         .HandleNewData (some 12), .SetMaxNumberOfDatasets 2]).MaxNumberOfDatasets :=
  ((cache_is_bounded
    [.SetMaxNumberOfDatasets 0, .HandleNewData (some 10), .HandleNewData (some 11),
     .HandleNewData (some 12), .SetMaxNumberOfDatasets 2]).1 (by decide)).1

/-- Over calls none of which is `CheckForNewData`, the flag `NewData` ends up
set exactly when it was set before or one of the calls inserted a frame. -/
theorem calls_NewData (c : PacketConsumer Frame) (post : List (CacheCall Frame))
    (hno : ∀ op ∈ post, op ≠ CacheCall.CheckForNewData) :
    (c.calls post).NewData = true ↔ (c.NewData = true ∨ inserted post ≠ []) := by
  induction post using List.reverseRecOn with
  | nil => simp [calls, inserted]
  | append_singleton post op ih =>
    have ih1 := ih (fun o ho => hno o (List.mem_append_left _ ho))
    have hop : op ≠ CacheCall.CheckForNewData := hno op (by simp)
    have hins : inserted (post ++ [op]) = inserted post ++ (inserted [op]) := by
      simp [inserted, List.filterMap_append]
    rw [calls_snoc, hins]
    cases op with
    | HandleNewData polyData =>
      have hone : inserted [CacheCall.HandleNewData polyData] = [polyData] := rfl
      simp [call, HandleNewData, hone]
    | SetMaxNumberOfDatasets nDatasets =>
      have hone : inserted [CacheCall.SetMaxNumberOfDatasets nDatasets]
          = ([] : List (Option Frame)) := rfl
      obtain ⟨j, -, hupd⟩ :=
        UpdateDequeSize_drop { (c.calls post) with MaxNumberOfDatasets := nDatasets }
      rw [hone, List.append_nil]
      simp only [call, SetMaxNumberOfDatasets]
      rw [hupd]
      exact ih1
    | GetDatasetForTime t =>
      have hone : inserted [CacheCall.GetDatasetForTime t] = ([] : List (Option Frame)) := rfl
      rw [hone, List.append_nil]
      exact ih1
    | GetTimesteps =>
      have hone : inserted [CacheCall.GetTimesteps] = ([] : List (Option Frame)) := rfl
      rw [hone, List.append_nil]
      exact ih1
    | CheckForNewData => exact absurd rfl hop

/-- C14: `CheckForNewData` is edge-triggered.  After any calls other than
`CheckForNewData` that follow an earlier `CheckForNewData`, or that follow
construction, it returns `true` exactly when one of those calls inserted a
frame.  It returns the flag and clears it, so a second call right after the
first returns `false`, and it leaves every other field as it was. -/
theorem CheckForNewData_edge_triggered (c : PacketConsumer Frame)
    (post : List (CacheCall Frame)) (hno : ∀ op ∈ post, op ≠ CacheCall.CheckForNewData) :
    ((((c.CheckForNewData).2.calls post).CheckForNewData).1 = true ↔ inserted post ≠ []) ∧
    ((((new : PacketConsumer Frame).calls post).CheckForNewData).1 = true
      ↔ inserted post ≠ []) ∧
    ((c.CheckForNewData).2.CheckForNewData).1 = false ∧
    (c.CheckForNewData).1 = c.NewData ∧
    (c.CheckForNewData).2 = { c with NewData := false } := by
  refine ⟨?_, ?_, rfl, rfl, rfl⟩
  · have h := calls_NewData (c.CheckForNewData).2 post hno
    simpa [CheckForNewData] using h
  · have h := calls_NewData (new : PacketConsumer Frame) post hno
    simpa [CheckForNewData, new] using h

/-- C14, instance: after a check, a capacity change and a lookup raise no
flag, an insert does. -/
theorem CheckForNewData_edge_triggered_witness :
    ((((new : PacketConsumer Nat).calls
        [.SetMaxNumberOfDatasets 5, .GetDatasetForTime 0]).CheckForNewData).1 = false) ∧
    ((((new : PacketConsumer Nat).calls
        [.SetMaxNumberOfDatasets 5, .HandleNewData (some 10)]).CheckForNewData).1 = true) := by
  constructor
  · have h := (CheckForNewData_edge_triggered (new : PacketConsumer Nat)
      [.SetMaxNumberOfDatasets 5, .GetDatasetForTime 0] (by simp)).2.1
    simpa [inserted, CacheCall.frame] using h
  · have h := (CheckForNewData_edge_triggered (new : PacketConsumer Nat)
      [.SetMaxNumberOfDatasets 5, .HandleNewData (some 10)] (by simp)).2.1
    simpa [inserted, CacheCall.frame] using h

/-- The specified eviction on a positive capacity drops `size - capacity`
entries from the head. -/
theorem evictToCapacity_eq {β : Type} (capacity : Int) (hpos : 0 < capacity)
    (entries : List β) :
    FrameCache.evictToCapacity capacity entries
      = entries.drop (entries.length - capacity.toNat) := by
  induction entries with
  | nil => simp [FrameCache.evictToCapacity]
  | cons entry rest ih =>
    unfold FrameCache.evictToCapacity
    by_cases hfull : ((entry :: rest).length : Int) > capacity
    · rw [if_pos hfull, ih]
      have hlen : (entry :: rest).length = rest.length + 1 := rfl
      rw [hlen] at hfull ⊢
      have hk : rest.length + 1 - capacity.toNat = (rest.length - capacity.toNat) + 1 := by
        omega
      rw [hk, List.drop_succ_cons]
    · rw [if_neg hfull]
      have hlen : (entry :: rest).length = rest.length + 1 := rfl
      rw [hlen] at hfull ⊢
      have hk : rest.length + 1 - capacity.toNat = 0 := by omega
      rw [hk, List.drop_zero]

/-- Pairing two lists after dropping the same number of entries from both. -/
theorem zip_drop_drop {β γ : Type} (j : Nat) (xs : List β) (ys : List γ) :
    List.zip (xs.drop j) (ys.drop j) = (List.zip xs ys).drop j := by
  induction j generalizing xs ys with
  | zero => rfl
  | succ j ih =>
    cases xs with
    | nil => simp
    | cons x xs =>
      cases ys with
      | nil => simp
      | cons y ys => simpa using ih xs ys

/-- The code's insert and the specified insert agree on every cache whose two
deques have the same size. -/
theorem HandleNewData_toFrameCache (c : PacketConsumer Frame) (polyData : Option Frame)
    (hwf : c.Datasets.length = c.Timesteps.length) :
    (c.HandleNewData polyData).toFrameCache = (c.toFrameCache).insert polyData := by
  by_cases hpos : 0 < c.MaxNumberOfDatasets
  · rw [HandleNewData_eq c polyData hpos]
    simp only [toFrameCache, FrameCache.insert, if_neg (not_le.mpr hpos)]
    rw [evictToCapacity_eq _ hpos, List.zip_append (by simp only [List.length_drop]; omega),
      zip_drop_drop]
    have hz : (List.zip c.Timesteps c.Datasets).length = c.Datasets.length := by
      simp only [List.length_zip]
      omega
    rw [List.length_append, List.length_singleton, hz,
      List.drop_append_of_le_length (by omega)]
    simp only [List.zip_cons_cons, List.zip_nil_right]
  · rw [HandleNewData_nonpos c polyData (by omega)]
    simp only [toFrameCache, FrameCache.insert, if_pos (not_lt.mp hpos)]
    rw [List.zip_append hwf.symm]
    rfl

/-- C15: in every state reachable from a fresh consumer and for every frame,
the code's insert (evict while size >= capacity, then append) and the specified
insert (append, then evict until size == capacity; no eviction on a capacity
that is not positive) give the same sequence of (timestamp, frame) pairs, the
same capacity, the same new-data flag and the same next timestamp. -/
theorem insert_refines_specified_insert (ops : List (CacheCall Frame))
    (polyData : Option Frame) :
    (((new : PacketConsumer Frame).calls ops).HandleNewData polyData).toFrameCache
      = (((new : PacketConsumer Frame).calls ops).toFrameCache).insert polyData :=
  HandleNewData_toFrameCache _ polyData (calls_new_wf ops)

end PacketConsumer

namespace Heap

/-- The string that `new` creates is read back at the new address. -/
theorem read_alloc (heap : Heap) (bytes : List Byte) :
    (heap.alloc bytes).2.read (heap.alloc bytes).1 = some bytes := by
  simp [read, alloc]

/-- The strings allocated before a `new` are still read at their addresses. -/
theorem read_alloc_old (heap : Heap) (bytes : List Byte) (address : Nat)
    (h : address < heap.strings.length) :
    (heap.alloc bytes).2.read address = heap.read address := by
  simp [read, alloc, List.getElem?_append_left h]

/-- An address that holds a string was allocated. -/
theorem lt_of_read (heap : Heap) (address : Nat) (bytes : List Byte)
    (h : heap.read address = some bytes) : address < heap.strings.length := by
  unfold read at h
  by_contra hge
  rw [List.getElem?_eq_none (by omega)] at h
  exact Option.noConfusion h

end Heap

namespace PacketReceiver

variable {Frame : Type}

/-- C9, the source at a forwarding receiver that received three bytes without
error.  When the forwarding send fails, the exception leaves `SocketCallback`
before `QueuePackets` and `StartReceive`: the consumer queue is still empty, no
receive is outstanding and `IsReceiving` is still set.  When the same send
returns, the packet is queued and the receive re-armed. -/
theorem SocketCallback_send_failure_drops_packet :
    (SocketCallback (fun _ => none) sampleReceiver (sampleInternal false)
        { strings := [] } false 3).map
      (fun res => (res.thrown, res.receiver.ReceivePending, res.receiver.IsReceiving,
        res.parent.Consumer.Packets))
    = some (true, false, true, some SynchronizedQueue.new) ∧
    (SocketCallback (fun _ => some 3) sampleReceiver (sampleInternal false)
        { strings := [] } false 3).map
      (fun res => (res.thrown, res.receiver.ReceivePending, res.receiver.IsReceiving,
        res.parent.Consumer.Packets))
    = some (false, true, true,
        some { queue_ := [some 0], request_to_end_ := false, enqueue_data_ := true }) := by
  constructor <;> rfl

/-- The two outcomes of the callback on a forwarding receiver that is not asked
to stop, for a datagram received without error.  When the forwarding send
returns, the callback hands the packet to `QueuePackets`, re-arms the receive
and counts the packet.  When the send fails, the exception leaves the callback
before `QueuePackets` and `StartReceive`: the parent is unchanged and no
receive is outstanding. -/
theorem SocketCallback_forwarding (send_to : List Byte → Option Nat) (r : PacketReceiver)
    (parent : vtkInternal Frame) (heap : Heap) (numberOfBytes : Nat)
    (hstop : r.ShouldStop = false) (hfwd : r.isForwarding = true) :
    (∀ n parent1 heap2, send_to (r.RXBuffer.take numberOfBytes) = some n →
      parent.QueuePackets (heap.alloc (r.RXBuffer.take numberOfBytes)).2
          (some (heap.alloc (r.RXBuffer.take numberOfBytes)).1) = some (parent1, heap2) →
      SocketCallback send_to r parent heap false numberOfBytes =
        some { receiver := { r with IsReceiving := true, ReceivePending := true,
                                    PacketCounter := r.PacketCounter + 1 },
               parent := parent1, heap := heap2,
               sent := [r.RXBuffer.take numberOfBytes], thrown := false }) ∧
    (send_to (r.RXBuffer.take numberOfBytes) = none →
      SocketCallback send_to r parent heap false numberOfBytes =
        some { receiver := { r with ReceivePending := false }, parent := parent,
               heap := (heap.alloc (r.RXBuffer.take numberOfBytes)).2,
               sent := [], thrown := true }) := by
  constructor
  · intro n parent1 heap2 hsend hqueue
    simp [SocketCallback, hstop, hfwd, hsend, hqueue, StartReceive]
  · intro hsend
    simp [SocketCallback, hstop, hfwd, hsend]

/-- An instance of the first outcome: the send returns and the packet is
queued with the receive re-armed. -/
theorem SocketCallback_forwarding_witness :
    (SocketCallback (fun _ => some 3) sampleReceiver (sampleInternal false)
        { strings := [] } false 3).map
      (fun res => (res.thrown, res.receiver.ReceivePending, res.parent.Consumer.Packets))
    = some (false, true,
        some { queue_ := [some 0], request_to_end_ := false, enqueue_data_ := true }) := by
  rw [(SocketCallback_forwarding (fun _ => some 3) sampleReceiver (sampleInternal false)
    { strings := [] } 3 rfl rfl).1 3 _ _ rfl rfl]
  rfl

end PacketReceiver

namespace vtkInternal

variable {Frame : Type}

/-- C10: dispatch is a pure fan-out.  With the consumer pointer set and the
consumer's queue open, `QueuePackets(p)` appends `p` at the tail of the
consumer's queue.  When the writer is not set, nothing else changes.  When the
writer is set and its queue is open, the tail of the writer's queue receives
the address of a new string, different from `p`, holding the same bytes as `p`;
the strings already allocated, `p` among them, are unchanged, and so is
everything else. -/
theorem QueuePackets_fan_out (s : vtkInternal Frame) (heap : Heap) (p : Nat)
    (bytes : List Byte) (qc : SynchronizedQueue (Option Nat))
    (hcons : s.NetworkSource.Consumer = true)
    (hqc : s.Consumer.Packets = some qc) (hopen : qc.enqueue_data_ = true)
    (hread : heap.read p = some bytes) :
    (s.NetworkSource.Writer = false →
      s.QueuePackets heap (some p) =
        some ({ s with
                Consumer := { s.Consumer with
                  Packets := some { qc with queue_ := qc.queue_ ++ [some p] } } },
              heap)) ∧
    (s.NetworkSource.Writer = true →
      ∀ qw, s.Writer.Packets = some qw → qw.enqueue_data_ = true →
        s.QueuePackets heap (some p) =
          some ({ s with
                  Consumer := { s.Consumer with
                    Packets := some { qc with queue_ := qc.queue_ ++ [some p] } }
                  Writer := { s.Writer with
                    Packets := some { qw with
                      queue_ := qw.queue_ ++ [some heap.strings.length] } } },
                { strings := heap.strings ++ [bytes] }) ∧
        heap.strings.length ≠ p ∧
        Heap.read { strings := heap.strings ++ [bytes] } heap.strings.length = some bytes ∧
        Heap.read { strings := heap.strings ++ [bytes] } p = some bytes ∧
        ∀ a, a < heap.strings.length →
          Heap.read { strings := heap.strings ++ [bytes] } a = heap.read a) := by
  have hp : p < heap.strings.length := Heap.lt_of_read heap p bytes hread
  constructor
  · intro hw
    simp [QueuePackets, hw, hcons, PacketConsumer.Enqueue, hqc,
      SynchronizedQueue.enqueue_open qc (some p) hopen]
  · intro hw qw hqw hopenw
    refine ⟨?_, by omega, Heap.read_alloc heap bytes, ?_, ?_⟩
    · simp [QueuePackets, hw, hcons, PacketConsumer.Enqueue, hqc, hread, Heap.alloc,
        PacketFileWriter.Enqueue, hqw, SynchronizedQueue.enqueue_open qc (some p) hopen,
        SynchronizedQueue.enqueue_open qw (some heap.strings.length) hopenw]
    · exact (Heap.read_alloc_old heap bytes p hp).trans hread
    · intro a ha
      exact Heap.read_alloc_old heap bytes a ha

/-- C10, instance: a started source that writes; the packet at address 0 goes
to the consumer, its copy at address 1 to the file writer. -/
theorem QueuePackets_fan_out_witness :
    ((sampleInternal true).QueuePackets { strings := [[1, 2, 3]] } (some 0)).map
      (fun res => (res.1.Consumer.Packets, res.1.Writer.Packets, res.2))
    = some (some { queue_ := [some 0], request_to_end_ := false, enqueue_data_ := true },
            some { queue_ := [some 1], request_to_end_ := false, enqueue_data_ := true },
            { strings := [[1, 2, 3], [1, 2, 3]] }) := by
  rw [((QueuePackets_fan_out (sampleInternal true) { strings := [[1, 2, 3]] } 0 [1, 2, 3]
    SynchronizedQueue.new rfl rfl rfl rfl).2 rfl SynchronizedQueue.new rfl rfl).1]
  rfl

end vtkInternal

namespace vtkVelodyneHDLSource

variable {Frame : Type}

/-- A freshly constructed source satisfies the invariant. -/
theorem Safe_new (fl fg : Int) : Safe (new fl fg : vtkVelodyneHDLSource Frame) := by
  simp [Safe, new, PacketConsumer.new, PacketFileWriter.new, PacketNetworkSource.new,
    receiversExist]

/-- The method `Stop` keeps the invariant. -/
theorem Safe_Stop (s : vtkVelodyneHDLSource Frame) (h : Safe s) : Safe s.Stop := by
  obtain ⟨hc, hw, ho, hn, -⟩ := h
  refine ⟨?_, ?_, ?_, ?_, ?_⟩
  · simp only [Stop, PacketConsumer.Stop]
    split <;> simp_all
  · simp only [Stop, PacketFileWriter.Stop]
    split <;> simp_all
  · simp only [Stop, PacketFileWriter.Stop]
    split <;> simp_all
  · simpa [Stop, PacketNetworkSource.Stop] using hn
  · simp [Stop, PacketNetworkSource.Stop, receiversExist]

/-- The method `SetOutputFile` keeps the invariant. -/
theorem Safe_SetOutputFile (s : vtkVelodyneHDLSource Frame) (filename : String)
    (h : Safe s) : Safe (s.SetOutputFile filename) := by
  unfold SetOutputFile
  split
  · exact h
  · obtain ⟨hc, hw, ho, hn, hr⟩ := h
    exact ⟨hc, hw, by simp [PacketFileWriter.Close, vtkPacketFileWriter.Close], hn, hr⟩

/-- After `PacketFileWriter::Start`, a writer with a thread has its queue, and
so has a writer whose external writer is open. -/
theorem PacketFileWriter_Start_queue (w : PacketFileWriter) (filename : String)
    (openOk : Bool) (hw : w.Thread = true → w.Packets.isSome = true) :
    ((w.Start filename openOk).Thread = true →
      (w.Start filename openOk).Packets.isSome = true) ∧
    ((w.Start filename openOk).PacketWriter.Open = true →
      (w.Start filename openOk).Packets.isSome = true) := by
  unfold PacketFileWriter.Start
  by_cases ht : w.Thread = true
  · rw [if_pos ht]
    exact ⟨hw, fun _ => hw ht⟩
  · simp only [ht]
    by_cases hname : w.PacketWriter.GetFileName ≠ filename
    · cases openOk <;>
        simp [hname, vtkPacketFileWriter.Close, vtkPacketFileWriter.IsOpen,
          vtkPacketFileWriter.OpenFile, ht]
    · by_cases hopen : w.PacketWriter.Open = true
      · simp [hname, vtkPacketFileWriter.IsOpen, hopen]
      · cases openOk <;>
          simp [hname, vtkPacketFileWriter.IsOpen, vtkPacketFileWriter.OpenFile, hopen, ht]

/-- After `PacketConsumer::Start` the consumer has a thread and its queue. -/
theorem PacketConsumer_Start_queue (c : PacketConsumer Frame)
    (hc : c.Thread = true → c.Packets.isSome = true) :
    (c.Start).Packets.isSome = true ∧ (c.Start).Thread = true := by
  unfold PacketConsumer.Start
  by_cases ht : c.Thread = true
  · rw [if_pos ht]
    exact ⟨hc ht, ht⟩
  · simp [ht]

/-- The method `PacketNetworkSource::Start` leaves the consumer and writer
pointers as they are, whatever the outcome of the receiver constructors. -/
theorem PacketNetworkSource_Start_pointers (from_string : String → Bool)
    (n : PacketNetworkSource) (lidarOk positionOk : Bool) :
    (n.Start from_string lidarOk positionOk).Consumer = n.Consumer ∧
    (n.Start from_string lidarOk positionOk).Writer = n.Writer := by
  unfold PacketNetworkSource.Start
  by_cases h1 : n.Thread = true <;> by_cases h2 : n.LIDARPortReceiver.isSome = true <;>
    simp only [h1, h2, Bool.not_true, Bool.not_false, Bool.false_eq_true, if_true, if_false,
      and_self] <;>
    (split <;> [simp; (split <;> simp)])

/-- The method `Start` keeps the invariant. -/
theorem Safe_Start (from_string : String → Bool) (s : vtkVelodyneHDLSource Frame)
    (openOk lidarOk positionOk : Bool) (h : Safe s) :
    Safe (s.Start from_string openOk lidarOk positionOk) := by
  obtain ⟨hc, hw, ho, hn, -⟩ := h
  obtain ⟨hcq, hct⟩ := PacketConsumer_Start_queue s.Internal.Consumer hc
  obtain ⟨hwt, hwo⟩ := PacketFileWriter_Start_queue s.Internal.Writer s.OutputFile openOk hw
  by_cases hlen : s.OutputFile.length ≠ 0
  · refine ⟨fun _ => ?_, ?_, ?_, ?_, fun _ => ⟨?_, ?_⟩⟩
    · simpa [Start] using hcq
    · simpa [Start, hlen] using hwt
    · intro _
      simpa [Start] using hlen
    · simpa [Start, (PacketNetworkSource_Start_pointers _ _ _ _).1] using hn
    · simpa [Start] using hcq
    · simpa [Start, hlen, (PacketNetworkSource_Start_pointers _ _ _ _).2,
        PacketFileWriter.IsOpen, vtkPacketFileWriter.IsOpen] using hwo
  · refine ⟨fun _ => ?_, ?_, ?_, ?_, fun _ => ⟨?_, ?_⟩⟩
    · simpa [Start] using hcq
    · simpa [Start, hlen] using hw
    · simpa [Start, hlen] using ho
    · simpa [Start, (PacketNetworkSource_Start_pointers _ _ _ _).1] using hn
    · simpa [Start] using hcq
    · intro hset
      have hopen : s.Internal.Writer.PacketWriter.Open = true := by
        simpa [Start, hlen, (PacketNetworkSource_Start_pointers _ _ _ _).2,
          PacketFileWriter.IsOpen, vtkPacketFileWriter.IsOpen] using hset
      exact absurd (ho hopen) hlen

/-- Every state reachable from a freshly constructed source satisfies the
invariant, whatever addresses the parser accepts. -/
theorem Safe_calls (from_string : String → Bool) (fl fg : Int) (ops : List SourceCall) :
    Safe ((new fl fg : vtkVelodyneHDLSource Frame).calls from_string ops) := by
  induction ops using List.reverseRecOn with
  | nil => exact Safe_new fl fg
  | append_singleton ops op ih =>
    have hsnoc : (new fl fg : vtkVelodyneHDLSource Frame).calls from_string (ops ++ [op])
        = ((new fl fg : vtkVelodyneHDLSource Frame).calls from_string ops).call
            from_string op := by
      simp [calls, List.foldl_append]
    rw [hsnoc]
    cases op with
    | Start openOk lidarOk positionOk => exact Safe_Start _ _ openOk lidarOk positionOk ih
    | Stop => exact Safe_Stop _ ih
    | SetOutputFile filename => exact Safe_SetOutputFile _ filename ih
    | SetLIDARPort port => exact ih
    | SetGPSPort port => exact ih
    | SetForwardedLIDARPort port => exact ih
    | SetForwardedGPSPort port => exact ih
    | SetForwardedIpAddress address => exact ih
    | SetisForwarding flag => exact ih

/-- With the consumer pointer set and the queues it needs in place,
`QueuePackets` on an allocated packet is defined. -/
theorem QueuePackets_defined (s : vtkInternal Frame) (heap : Heap) (p : Nat)
    (bytes : List Byte) (hn : s.NetworkSource.Consumer = true)
    (hc : s.Consumer.Packets.isSome = true)
    (hw : s.NetworkSource.Writer = true → s.Writer.Packets.isSome = true)
    (hread : heap.read p = some bytes) :
    (s.QueuePackets heap (some p)).isSome = true := by
  obtain ⟨qc, hqc⟩ := Option.isSome_iff_exists.mp hc
  by_cases hset : s.NetworkSource.Writer = true
  · obtain ⟨qw, hqw⟩ := Option.isSome_iff_exists.mp (hw hset)
    simp [vtkInternal.QueuePackets, hset, hn, hread, PacketConsumer.Enqueue, hqc,
      PacketFileWriter.Enqueue, hqw]
  · simp [vtkInternal.QueuePackets, hset, hn, PacketConsumer.Enqueue, hqc]

/-- C16: dispatch never reaches a missing queue.  In every state reachable
from a freshly constructed source by `Start`, `Stop` and `SetOutputFile` calls
and by calls of the configuration setters, whatever the outcome of each `Open`
of the external writer, whichever receiver constructors fail and whatever
addresses the parser accepts, if a receiver exists then the consumer's packet
queue exists, the file writer's packet queue exists whenever
`NetworkSource.Writer` is set, and `QueuePackets` on a received packet makes no
`Enqueue` through a null `Packets`. -/
theorem dispatch_never_reaches_missing_queue (from_string : String → Bool) (fl fg : Int)
    (ops : List SourceCall) :
    ((new fl fg : vtkVelodyneHDLSource Frame).calls from_string ops).receiversExist = true →
      ((new fl fg : vtkVelodyneHDLSource Frame).calls from_string
          ops).Internal.Consumer.Packets.isSome = true ∧
      (((new fl fg : vtkVelodyneHDLSource Frame).calls from_string
          ops).Internal.NetworkSource.Writer = true →
        ((new fl fg : vtkVelodyneHDLSource Frame).calls from_string
          ops).Internal.Writer.Packets.isSome = true) ∧
      ∀ (heap : Heap) (p : Nat) (bytes : List Byte), heap.read p = some bytes →
        (((new fl fg : vtkVelodyneHDLSource Frame).calls from_string
          ops).Internal.QueuePackets heap (some p)).isSome = true := by
  intro hrecv
  obtain ⟨-, -, -, hn, hr⟩ := @Safe_calls Frame from_string fl fg ops
  obtain ⟨hc, hw⟩ := hr hrecv
  exact ⟨hc, hw, fun heap p bytes hread => QueuePackets_defined _ heap p bytes hn hc hw hread⟩

/-- C16, instance: the forwarding address and an output file are set, the
source started with the file opened and both receivers constructed, stopped,
and started again; the receivers exist and both queues do. -/
theorem dispatch_never_reaches_missing_queue_witness :
    ((new 0 0 : vtkVelodyneHDLSource Nat).calls sampleFromString
        [.SetForwardedIpAddress "127.0.0.1", .SetOutputFile "out.pcap",
         .Start true true true, .Stop,
         .Start true true true]).Internal.Consumer.Packets.isSome = true ∧
    ((new 0 0 : vtkVelodyneHDLSource Nat).calls sampleFromString
        [.SetForwardedIpAddress "127.0.0.1", .SetOutputFile "out.pcap",
         .Start true true true, .Stop,
         .Start true true true]).Internal.Writer.Packets.isSome = true :=
  ⟨(dispatch_never_reaches_missing_queue sampleFromString 0 0
      [.SetForwardedIpAddress "127.0.0.1", .SetOutputFile "out.pcap",
       .Start true true true, .Stop, .Start true true true] (by decide)).1,
   (dispatch_never_reaches_missing_queue sampleFromString 0 0
      [.SetForwardedIpAddress "127.0.0.1", .SetOutputFile "out.pcap",
       .Start true true true, .Stop, .Start true true true] (by decide)).2.1 (by decide)⟩

/-- With the forwarding address left empty, as the constructor leaves it, the
address parser of the receiver constructor rejects it: `Start` creates no
receiver, while the consumer has been started. -/
theorem Start_with_empty_address :
    ((new 0 0 : vtkVelodyneHDLSource Nat).calls sampleFromString
        [.Start true true true]).receiversExist = false ∧
    ((new 0 0 : vtkVelodyneHDLSource Nat).calls sampleFromString
        [.Start true true true]).Internal.Consumer.Packets.isSome = true := by
  constructor <;> decide

end vtkVelodyneHDLSource

end VelodyneHDL
